import Mathlib

/-!
Verification of the markdown-to-pdf styling and layout engine
(`src/lib/editor.ts` and the PDF image-slicing planner) against its
natural-language specification.

Shallow embedding conventions:
* JavaScript numbers are modelled as exact rationals (`ℚ`).  All arithmetic
  the claims touch (clamps, halving, the aspect-ratio division) is exact on
  the values involved, so no floating-point rounding is modelled.
* JavaScript strings are modelled as Lean `String`s; where index arithmetic
  matters (the markdown toolbar, the underline substitution) text is
  modelled as `List Char` with natural-number offsets.  JS indices are
  UTF-16 code units and `List Char` positions are code points; these agree
  on all inputs appearing in the claims.
* `JSON.parse` output is modelled by the inductive `Json` type below; an
  unparsable input is modelled as `none : Option Json`.
* Fallible functions return `Except String _`; a `throw` in the source is
  an `Except.error`.
-/

/-! ## Page, theme and font preset tables (editor.ts lines 1–172) -/

inductive PagePresetKey
  | a4
  | letter
  | legal
  deriving DecidableEq, Repr

structure PagePreset where
  label : String
  widthMm : ℚ
  heightMm : ℚ
  deriving DecidableEq, Repr

def PAGE_PRESETS : PagePresetKey → PagePreset
  | .a4 => ⟨"A4", 210, 297⟩
  | .letter => ⟨"Letter", 215.9, 279.4⟩
  | .legal => ⟨"Legal", 215.9, 355.6⟩

inductive ThemePresetKey
  | classic
  | warm
  | slate
  | forest
  | noir
  deriving DecidableEq, Repr

structure ThemePreset where
  label : String
  background : String
  text : String
  accent : String
  deriving DecidableEq, Repr

def THEME_PRESETS : ThemePresetKey → ThemePreset
  | .classic => ⟨"Classic Print", "#ffffff", "#111111", "#111111"⟩
  | .warm => ⟨"Warm Editorial", "#f7f1e3", "#1f2329", "#c97342"⟩
  | .slate => ⟨"Slate Room", "#e8ecf3", "#18212c", "#5271ff"⟩
  | .forest => ⟨"Field Notes", "#eef2e6", "#1b2a22", "#3f7a57"⟩
  | .noir => ⟨"Noir Print", "#191613", "#f5eadc", "#f2a65a"⟩

inductive ThemeSelection
  | preset (key : ThemePresetKey)
  | custom
  deriving DecidableEq, Repr

inductive FontPresetKey
  | libre
  | ebgaramond
  | fraunces
  | dmserif
  | playfair
  | cormorant
  | literata
  | spectral
  | crimson
  | lora
  | merriweather
  | space
  | manrope
  | work
  | dmsans
  | plex
  | source
  deriving DecidableEq, Repr

structure FontPreset where
  label : String
  family : String
  deriving DecidableEq, Repr

def FONT_PRESETS : FontPresetKey → FontPreset
  | .libre => ⟨"Libre Baskerville", "\x27Libre Baskerville\x27, Georgia, serif"⟩
  | .ebgaramond => ⟨"EB Garamond", "\x27EB Garamond\x27, Georgia, serif"⟩
  | .fraunces => ⟨"Fraunces", "\x27Fraunces\x27, Georgia, serif"⟩
  | .dmserif => ⟨"DM Serif Display", "\x27DM Serif Display\x27, Georgia, serif"⟩
  | .playfair => ⟨"Playfair Display", "\x27Playfair Display\x27, Georgia, serif"⟩
  | .cormorant => ⟨"Cormorant Garamond", "\x27Cormorant Garamond\x27, Georgia, serif"⟩
  | .literata => ⟨"Literata", "\x27Literata\x27, Georgia, serif"⟩
  | .spectral => ⟨"Spectral", "\x27Spectral\x27, Georgia, serif"⟩
  | .crimson => ⟨"Crimson Pro", "\x27Crimson Pro\x27, Georgia, serif"⟩
  | .lora => ⟨"Lora", "\x27Lora\x27, Georgia, serif"⟩
  | .merriweather => ⟨"Merriweather", "\x27Merriweather\x27, Georgia, serif"⟩
  | .space => ⟨"Space Grotesk", "\x27Space Grotesk\x27, \x27Segoe UI\x27, sans-serif"⟩
  | .manrope => ⟨"Manrope", "\x27Manrope\x27, \x27Segoe UI\x27, sans-serif"⟩
  | .work => ⟨"Work Sans", "\x27Work Sans\x27, \x27Segoe UI\x27, sans-serif"⟩
  | .dmsans => ⟨"DM Sans", "\x27DM Sans\x27, \x27Segoe UI\x27, sans-serif"⟩
  | .plex => ⟨"IBM Plex Sans", "\x27IBM Plex Sans\x27, \x27Segoe UI\x27, sans-serif"⟩
  | .source => ⟨"Source Serif 4", "\x27Source Serif 4\x27, Georgia, serif"⟩

def BODY_FONT_PRESETS : FontPresetKey → FontPreset := FONT_PRESETS

def HEADING_FONT_PRESETS : FontPresetKey → FontPreset := FONT_PRESETS

/-! ## Margin-box positions (editor.ts lines 126–145) -/

inductive MarginBoxPosition
  | topLeft
  | topCenter
  | topRight
  | bottomLeft
  | bottomCenter
  | bottomRight
  deriving DecidableEq, Repr

inductive HeaderPosition
  | topLeft
  | topCenter
  | topRight
  deriving DecidableEq, Repr

inductive FooterPosition
  | bottomLeft
  | bottomCenter
  | bottomRight
  deriving DecidableEq, Repr

def HeaderPosition.toBox : HeaderPosition → MarginBoxPosition
  | .topLeft => .topLeft
  | .topCenter => .topCenter
  | .topRight => .topRight

def FooterPosition.toBox : FooterPosition → MarginBoxPosition
  | .bottomLeft => .bottomLeft
  | .bottomCenter => .bottomCenter
  | .bottomRight => .bottomRight

/-! ## State records (editor.ts lines 170–259) -/

def MIN_CHROME_FONT_SIZE_PT : ℚ := 7

def MAX_CHROME_FONT_SIZE_PT : ℚ := 16

def DEFAULT_CHROME_FONT_SIZE_PT : ℚ := 9

structure StyleState where
  fontFamily : FontPresetKey
  headingFamily : FontPresetKey
  bodyFontSize : ℚ
  headingBaseSize : ℚ
  lineHeight : ℚ
  paragraphSpacing : ℚ
  letterSpacing : ℚ
  background : String
  text : String
  accent : String
  deriving DecidableEq, Repr

structure PageChromeState where
  headerEnabled : Bool
  headerText : String
  headerPosition : HeaderPosition
  headerFontSizePt : ℚ
  footerEnabled : Bool
  footerText : String
  footerPosition : FooterPosition
  footerFontSizePt : ℚ
  pageNumbersEnabled : Bool
  pageNumberPosition : MarginBoxPosition
  deriving DecidableEq, Repr

/-- The `version: 1` literal field of the TypeScript `StylesetState` is a
constant of the type and is reinstated by serialization; it is not repeated
as a record field here. -/
structure StylesetState where
  themePreset : ThemeSelection
  pagePreset : PagePresetKey
  horizontalMarginMm : ℚ
  verticalMarginMm : ℚ
  style : StyleState
  pageChrome : PageChromeState
  deriving DecidableEq, Repr

def DEFAULT_STYLE : StyleState :=
  { fontFamily := .literata
    headingFamily := .libre
    bodyFontSize := 16
    headingBaseSize := 22
    lineHeight := 1.65
    paragraphSpacing := 1.1
    letterSpacing := 0
    background := "#ffffff"
    text := "#111111"
    accent := "#111111" }

def DEFAULT_PAGE_PRESET : PagePresetKey := .a4

def DEFAULT_THEME_PRESET : ThemePresetKey := .classic

def DEFAULT_HORIZONTAL_MARGIN_MM : ℚ := 16

def DEFAULT_VERTICAL_MARGIN_MM : ℚ := 16

def MIN_HORIZONTAL_MARGIN_MM : ℚ := 0

def MIN_VERTICAL_MARGIN_MM : ℚ := 8

def DEFAULT_PAGE_CHROME : PageChromeState :=
  { headerEnabled := false
    headerText := ""
    headerPosition := .topCenter
    headerFontSizePt := DEFAULT_CHROME_FONT_SIZE_PT
    footerEnabled := false
    footerText := ""
    footerPosition := .bottomCenter
    footerFontSizePt := DEFAULT_CHROME_FONT_SIZE_PT
    pageNumbersEnabled := true
    pageNumberPosition := .bottomRight }

/-! ## Numeric helpers (editor.ts lines 261–262, 457–464) -/

def clamp (value lo hi : ℚ) : ℚ := min (max value lo) hi

def clampHorizontalMarginMm (marginMm pageWidthMm : ℚ) : ℚ :=
  clamp marginMm MIN_HORIZONTAL_MARGIN_MM
    (max MIN_HORIZONTAL_MARGIN_MM (pageWidthMm / 2 - 12))

def clampVerticalMarginMm (marginMm pageHeightMm : ℚ) : ℚ :=
  clamp marginMm MIN_VERTICAL_MARGIN_MM
    (max MIN_VERTICAL_MARGIN_MM (pageHeightMm / 2 - 12))

def clampChromeFontSizePt (fontSizePt : ℚ) : ℚ :=
  clamp fontSizePt MIN_CHROME_FONT_SIZE_PT MAX_CHROME_FONT_SIZE_PT

/-! ## applyThemePreset (editor.ts lines 291–299) -/

def applyThemePreset (current : StyleState) (preset : ThemePresetKey) : StyleState :=
  { current with
    background := (THEME_PRESETS preset).background
    text := (THEME_PRESETS preset).text
    accent := (THEME_PRESETS preset).accent }

/-- C7: for every `StyleState` v and theme preset key p, `applyThemePreset v p`
sets background/text/accent to exactly preset p's triple and leaves every
other field (fontFamily, headingFamily, bodyFontSize, headingBaseSize,
lineHeight, paragraphSpacing, letterSpacing) unchanged. -/
theorem applyThemePreset_sets_palette_and_fixes_rest
    (v : StyleState) (p : ThemePresetKey) :
    (applyThemePreset v p).background = (THEME_PRESETS p).background ∧
    (applyThemePreset v p).text = (THEME_PRESETS p).text ∧
    (applyThemePreset v p).accent = (THEME_PRESETS p).accent ∧
    (applyThemePreset v p).fontFamily = v.fontFamily ∧
    (applyThemePreset v p).headingFamily = v.headingFamily ∧
    (applyThemePreset v p).bodyFontSize = v.bodyFontSize ∧
    (applyThemePreset v p).headingBaseSize = v.headingBaseSize ∧
    (applyThemePreset v p).lineHeight = v.lineHeight ∧
    (applyThemePreset v p).paragraphSpacing = v.paragraphSpacing ∧
    (applyThemePreset v p).letterSpacing = v.letterSpacing := by
  refine ⟨rfl, rfl, rfl, rfl, rfl, rfl, rfl, rfl, rfl, rfl⟩

/-! ## JSON values (model of `JSON.parse` output)

JSON numbers are modelled as exact rationals; `JSON.parse` only produces
finite doubles on the inputs the claims quantify over, so the
`Number.isFinite` guard of the source corresponds to matching the `num`
constructor.  An unparsable input string is modelled as `none : Option Json`
at the call sites of `parseStylesetState`. -/

inductive Json where
  | null
  | bool (b : Bool)
  | num (q : ℚ)
  | str (s : String)
  | arr (elems : List Json)
  | obj (fields : List (String × Json))

/-- JS property access keeps the last binding of a duplicated key. -/
def lookupLast (fields : List (String × Json)) (key : String) : Option Json :=
  fields.foldl (fun acc kv => if kv.1 = key then some kv.2 else acc) none

/-- Property access `value[key]`: only objects carry (non-index) properties. -/
def Json.get : Json → String → Option Json
  | .obj fields, key => lookupLast fields key
  | _, _ => none

/-- `isRecord` (editor.ts line 303): `typeof value === 'object' && value !== null`;
in JavaScript this is also true of arrays. -/
def Json.isRecord : Json → Bool
  | .obj _ => true
  | .arr _ => true
  | _ => false

/-- Gate used for `parsed.style` and `parsed.pageChrome`: a non-record value
degrades to the empty object `{}`. -/
def recordOrEmpty : Option Json → Json
  | some j => if j.isRecord then j else .obj []
  | none => .obj []

/-- `isFiniteNumber` guard (editor.ts line 306) applied to a field read. -/
def readFiniteNumber : Option Json → Option ℚ
  | some (.num q) => some q
  | _ => none

/-- `readString` (editor.ts line 309). -/
def readString : Option Json → String → String
  | some (.str s), _ => s
  | _, fallback => fallback

/-- `readBoolean` (editor.ts line 312). -/
def readBoolean : Option Json → Bool → Bool
  | some (.bool b), _ => b
  | _, fallback => fallback

def isAsciiHexDigitCI (c : Char) : Bool :=
  (Char.ofNat 48 ≤ c && c ≤ Char.ofNat 57) ||
  (Char.ofNat 97 ≤ c && c ≤ Char.ofNat 102) ||
  (Char.ofNat 65 ≤ c && c ≤ Char.ofNat 70)

/-- `COLOR_HEX_PATTERN = /^#[0-9a-f]{6}$/i` (editor.ts line 301). -/
def isColorHex (s : String) : Bool :=
  match s.toList with
  | '#' :: rest => rest.length == 6 && rest.all isAsciiHexDigitCI
  | _ => false

/-- `readColor` (editor.ts line 315). -/
def readColor : Option Json → String → String
  | some (.str s), fallback => if isColorHex s then s else fallback
  | _, fallback => fallback

/-! ## Enum membership checks and their fallback readers
(editor.ts lines 318–334)

These readers model membership among the tables' own keys.  The source
checks use JavaScript's `in` operator, which additionally accepts names
inherited from `Object.prototype` (e.g. "toString"); on such a name the
program keeps the value and, where it then reads the selected entry's
fields, gets `undefined`.  The faithful prototype-chain semantics of the
pagePreset check — the one place a settled claim turns on it — is modelled
below by `readPagePresetRefJs` and `parsedMarginsJs`. -/

def parsePagePresetKey : String → Option PagePresetKey
  | "a4" => some .a4
  | "letter" => some .letter
  | "legal" => some .legal
  | _ => none

def parseThemeSelection : String → Option ThemeSelection
  | "custom" => some .custom
  | "classic" => some (.preset .classic)
  | "warm" => some (.preset .warm)
  | "slate" => some (.preset .slate)
  | "forest" => some (.preset .forest)
  | "noir" => some (.preset .noir)
  | _ => none

def parseFontPresetKey : String → Option FontPresetKey
  | "libre" => some .libre
  | "ebgaramond" => some .ebgaramond
  | "fraunces" => some .fraunces
  | "dmserif" => some .dmserif
  | "playfair" => some .playfair
  | "cormorant" => some .cormorant
  | "literata" => some .literata
  | "spectral" => some .spectral
  | "crimson" => some .crimson
  | "lora" => some .lora
  | "merriweather" => some .merriweather
  | "space" => some .space
  | "manrope" => some .manrope
  | "work" => some .work
  | "dmsans" => some .dmsans
  | "plex" => some .plex
  | "source" => some .source
  | _ => none

def parseHeaderPosition : String → Option HeaderPosition
  | "top-left" => some .topLeft
  | "top-center" => some .topCenter
  | "top-right" => some .topRight
  | _ => none

def parseFooterPosition : String → Option FooterPosition
  | "bottom-left" => some .bottomLeft
  | "bottom-center" => some .bottomCenter
  | "bottom-right" => some .bottomRight
  | _ => none

def parseMarginBoxPosition : String → Option MarginBoxPosition
  | "top-left" => some .topLeft
  | "top-center" => some .topCenter
  | "top-right" => some .topRight
  | "bottom-left" => some .bottomLeft
  | "bottom-center" => some .bottomCenter
  | "bottom-right" => some .bottomRight
  | _ => none

def readPagePresetKey (v : Option Json) (fallback : PagePresetKey) : PagePresetKey :=
  match v with
  | some (.str s) => (parsePagePresetKey s).getD fallback
  | _ => fallback

def readThemeSelection (v : Option Json) (fallback : ThemeSelection) : ThemeSelection :=
  match v with
  | some (.str s) => (parseThemeSelection s).getD fallback
  | _ => fallback

def readFontPresetKey (v : Option Json) (fallback : FontPresetKey) : FontPresetKey :=
  match v with
  | some (.str s) => (parseFontPresetKey s).getD fallback
  | _ => fallback

def readHeaderPosition (v : Option Json) (fallback : HeaderPosition) : HeaderPosition :=
  match v with
  | some (.str s) => (parseHeaderPosition s).getD fallback
  | _ => fallback

def readFooterPosition (v : Option Json) (fallback : FooterPosition) : FooterPosition :=
  match v with
  | some (.str s) => (parseFooterPosition s).getD fallback
  | _ => fallback

def readMarginBoxPosition (v : Option Json) (fallback : MarginBoxPosition) : MarginBoxPosition :=
  match v with
  | some (.str s) => (parseMarginBoxPosition s).getD fallback
  | _ => fallback

/-! ## Serialization (editor.ts lines 336–354)

`serializeStylesetState` is `JSON.stringify` of the styleset object; it is
modelled by the JSON value that text denotes (`JSON.parse` of the produced
text gives back exactly this value). -/

def pagePresetKeyName : PagePresetKey → String
  | .a4 => "a4"
  | .letter => "letter"
  | .legal => "legal"

def themePresetKeyName : ThemePresetKey → String
  | .classic => "classic"
  | .warm => "warm"
  | .slate => "slate"
  | .forest => "forest"
  | .noir => "noir"

def themeSelectionName : ThemeSelection → String
  | .preset k => themePresetKeyName k
  | .custom => "custom"

def fontPresetKeyName : FontPresetKey → String
  | .libre => "libre"
  | .ebgaramond => "ebgaramond"
  | .fraunces => "fraunces"
  | .dmserif => "dmserif"
  | .playfair => "playfair"
  | .cormorant => "cormorant"
  | .literata => "literata"
  | .spectral => "spectral"
  | .crimson => "crimson"
  | .lora => "lora"
  | .merriweather => "merriweather"
  | .space => "space"
  | .manrope => "manrope"
  | .work => "work"
  | .dmsans => "dmsans"
  | .plex => "plex"
  | .source => "source"

def headerPositionName : HeaderPosition → String
  | .topLeft => "top-left"
  | .topCenter => "top-center"
  | .topRight => "top-right"

def footerPositionName : FooterPosition → String
  | .bottomLeft => "bottom-left"
  | .bottomCenter => "bottom-center"
  | .bottomRight => "bottom-right"

def marginBoxPositionName : MarginBoxPosition → String
  | .topLeft => "top-left"
  | .topCenter => "top-center"
  | .topRight => "top-right"
  | .bottomLeft => "bottom-left"
  | .bottomCenter => "bottom-center"
  | .bottomRight => "bottom-right"

def serializeStyleJson (st : StyleState) : Json :=
  .obj
    [ ("fontFamily", .str (fontPresetKeyName st.fontFamily)),
      ("headingFamily", .str (fontPresetKeyName st.headingFamily)),
      ("bodyFontSize", .num st.bodyFontSize),
      ("headingBaseSize", .num st.headingBaseSize),
      ("lineHeight", .num st.lineHeight),
      ("paragraphSpacing", .num st.paragraphSpacing),
      ("letterSpacing", .num st.letterSpacing),
      ("background", .str st.background),
      ("text", .str st.text),
      ("accent", .str st.accent) ]

def serializePageChromeJson (pc : PageChromeState) : Json :=
  .obj
    [ ("headerEnabled", .bool pc.headerEnabled),
      ("headerText", .str pc.headerText),
      ("headerPosition", .str (headerPositionName pc.headerPosition)),
      ("headerFontSizePt", .num pc.headerFontSizePt),
      ("footerEnabled", .bool pc.footerEnabled),
      ("footerText", .str pc.footerText),
      ("footerPosition", .str (footerPositionName pc.footerPosition)),
      ("footerFontSizePt", .num pc.footerFontSizePt),
      ("pageNumbersEnabled", .bool pc.pageNumbersEnabled),
      ("pageNumberPosition", .str (marginBoxPositionName pc.pageNumberPosition)) ]

def serializeStylesetState (s : StylesetState) : Json :=
  .obj
    [ ("version", .num 1),
      ("themePreset", .str (themeSelectionName s.themePreset)),
      ("pagePreset", .str (pagePresetKeyName s.pagePreset)),
      ("horizontalMarginMm", .num s.horizontalMarginMm),
      ("verticalMarginMm", .num s.verticalMarginMm),
      ("style", serializeStyleJson s.style),
      ("pageChrome", serializePageChromeJson s.pageChrome) ]

/-! ## parseStylesetState (editor.ts lines 356–455) -/

/-- The `parsed.version !== 1` check: true exactly on the JSON number 1. -/
def isVersion1 : Option Json → Bool
  | some (.num q) => decide (q = 1)
  | _ => false

def parseStylesetState (input : Option Json) : Except String StylesetState :=
  match input with
  | none => .error "Malformed JSON input."
  | some parsed =>
    if parsed.isRecord && isVersion1 (parsed.get "version") then
      let style := recordOrEmpty (parsed.get "style")
      let pageChrome := recordOrEmpty (parsed.get "pageChrome")
      let pagePreset := readPagePresetKey (parsed.get "pagePreset") DEFAULT_PAGE_PRESET
      let preset := PAGE_PRESETS pagePreset
      .ok
        { themePreset := readThemeSelection (parsed.get "themePreset") (.preset DEFAULT_THEME_PRESET)
          pagePreset := pagePreset
          horizontalMarginMm :=
            clampHorizontalMarginMm
              (match readFiniteNumber (parsed.get "horizontalMarginMm") with
               | some q => q
               | none =>
                 match readFiniteNumber (parsed.get "marginMm") with
                 | some q => q
                 | none => DEFAULT_HORIZONTAL_MARGIN_MM)
              preset.widthMm
          verticalMarginMm :=
            clampVerticalMarginMm
              (match readFiniteNumber (parsed.get "verticalMarginMm") with
               | some q => q
               | none =>
                 match readFiniteNumber (parsed.get "marginMm") with
                 | some q => q
                 | none => DEFAULT_VERTICAL_MARGIN_MM)
              preset.heightMm
          style :=
            { fontFamily := readFontPresetKey (style.get "fontFamily") DEFAULT_STYLE.fontFamily
              headingFamily := readFontPresetKey (style.get "headingFamily") DEFAULT_STYLE.headingFamily
              bodyFontSize :=
                clamp ((readFiniteNumber (style.get "bodyFontSize")).getD DEFAULT_STYLE.bodyFontSize) 13 24
              headingBaseSize :=
                clamp ((readFiniteNumber (style.get "headingBaseSize")).getD DEFAULT_STYLE.headingBaseSize) 18 36
              lineHeight :=
                clamp ((readFiniteNumber (style.get "lineHeight")).getD DEFAULT_STYLE.lineHeight) 1.25 2
              paragraphSpacing :=
                clamp ((readFiniteNumber (style.get "paragraphSpacing")).getD DEFAULT_STYLE.paragraphSpacing) 0.7 1.7
              letterSpacing :=
                clamp ((readFiniteNumber (style.get "letterSpacing")).getD DEFAULT_STYLE.letterSpacing) (-0.02) 0.08
              background := readColor (style.get "background") DEFAULT_STYLE.background
              text := readColor (style.get "text") DEFAULT_STYLE.text
              accent := readColor (style.get "accent") DEFAULT_STYLE.accent }
          pageChrome :=
            { headerEnabled := readBoolean (pageChrome.get "headerEnabled") DEFAULT_PAGE_CHROME.headerEnabled
              headerText := readString (pageChrome.get "headerText") DEFAULT_PAGE_CHROME.headerText
              headerPosition := readHeaderPosition (pageChrome.get "headerPosition") DEFAULT_PAGE_CHROME.headerPosition
              headerFontSizePt :=
                clampChromeFontSizePt
                  ((readFiniteNumber (pageChrome.get "headerFontSizePt")).getD DEFAULT_PAGE_CHROME.headerFontSizePt)
              footerEnabled := readBoolean (pageChrome.get "footerEnabled") DEFAULT_PAGE_CHROME.footerEnabled
              footerText := readString (pageChrome.get "footerText") DEFAULT_PAGE_CHROME.footerText
              footerPosition := readFooterPosition (pageChrome.get "footerPosition") DEFAULT_PAGE_CHROME.footerPosition
              footerFontSizePt :=
                clampChromeFontSizePt
                  ((readFiniteNumber (pageChrome.get "footerFontSizePt")).getD DEFAULT_PAGE_CHROME.footerFontSizePt)
              pageNumbersEnabled :=
                readBoolean (pageChrome.get "pageNumbersEnabled") DEFAULT_PAGE_CHROME.pageNumbersEnabled
              pageNumberPosition :=
                readMarginBoxPosition (pageChrome.get "pageNumberPosition") DEFAULT_PAGE_CHROME.pageNumberPosition } }
    else .error "Unsupported styleset file."

/-! ## Helper lemmas for the parsing claims -/

theorem isVersion1_iff (v : Option Json) : isVersion1 v = true ↔ v = some (.num 1) := by
  cases v with
  | none => simp [isVersion1]
  | some j => cases j <;> simp [isVersion1]

theorem clamp_of_mem (v lo hi : ℚ) (h1 : lo ≤ v) (h2 : v ≤ hi) : clamp v lo hi = v := by
  simp [clamp, max_eq_left h1, min_eq_left h2]

/-- Projection of a successful parse onto `style.bodyFontSize`. -/
def parsedBodyFontSizeOf (input : Option Json) : Option ℚ :=
  (parseStylesetState input).toOption.map fun s => s.style.bodyFontSize

/-- Projection of a successful parse onto the two margins. -/
def parsedMarginsOf (input : Option Json) : Option (ℚ × ℚ) :=
  (parseStylesetState input).toOption.map fun s => (s.horizontalMarginMm, s.verticalMarginMm)

/-- A successful parse of a present JSON value is exactly the top-level gate. -/
theorem parse_isOk_eq_gate (j : Json) :
    (parseStylesetState (some j)).isOk = (j.isRecord && isVersion1 (j.get "version")) := by
  rcases hg : j.isRecord && isVersion1 (j.get "version") with _ | _ <;>
    simp [parseStylesetState, hg, Except.isOk, Except.toBool]

/-- C2: `parseStylesetState` fails exactly when the input is not parseable
as JSON (modelled by `none`), the parsed top-level value is not an object,
or its `version` field is not the JSON number 1; every input passing that
top-level gate parses successfully, whatever the nested fields hold; and
`{"version":2}` is rejected with the unsupported-version error. -/
theorem parseStylesetState_toplevel_gate :
    (∀ input : Option Json,
      (parseStylesetState input).isOk = true ↔
        ∃ j, input = some j ∧ j.isRecord = true ∧ j.get "version" = some (.num 1)) ∧
    parseStylesetState (some (.obj [("version", .num 2)])) =
      .error "Unsupported styleset file." := by
  constructor
  · intro input
    cases input with
    | none => simp [parseStylesetState, Except.isOk, Except.toBool]
    | some j =>
      rw [parse_isOk_eq_gate]
      simp [Bool.and_eq_true, isVersion1_iff]
  · rfl

/-- C2 witness: an input passing the top-level gate parses successfully. -/
theorem parseStylesetState_toplevel_gate_witness :
    (parseStylesetState (some (.obj [("version", .num 1)]))).isOk = true :=
  (parseStylesetState_toplevel_gate.1 _).mpr ⟨_, rfl, rfl, rfl⟩

/-- C3 counterexample: parsing a version-1 styleset whose `style.bodyFontSize`
is 999 yields bodyFontSize 24 (the value clamped to the range boundary), not
the default 16 the claim demands. -/
theorem parse_bodyFontSize_999_clamped_not_default :
    parsedBodyFontSizeOf
        (some (.obj [("version", .num 1), ("style", .obj [("bodyFontSize", .num 999)])])) =
      some 24 ∧
    DEFAULT_STYLE.bodyFontSize = 16 ∧ (24 : ℚ) ≠ 16 := by
  refine ⟨by decide, rfl, by norm_num⟩

/-- C3 amended: for every version-1 styleset JSON record whose style record
carries a finite numeric `bodyFontSize` b, `parseStylesetState` returns
`style.bodyFontSize = clamp b 13 24` — the input clamped into the legal
range (so 24 for 999), not the default. -/
theorem parse_bodyFontSize_is_clamped
    (j st : Json) (b : ℚ)
    (hrec : j.isRecord = true)
    (hver : j.get "version" = some (.num 1))
    (hst : j.get "style" = some st)
    (hstrec : st.isRecord = true)
    (hb : st.get "bodyFontSize" = some (.num b)) :
    parsedBodyFontSizeOf (some j) = some (clamp b 13 24) := by
  have hv : isVersion1 (j.get "version") = true := (isVersion1_iff _).mpr hver
  simp [parsedBodyFontSizeOf, parseStylesetState, hrec, hv, hst, hstrec, hb,
    recordOrEmpty, readFiniteNumber, Except.toOption]

/-- C3 amended witness: the clamping theorem applied at bodyFontSize 999. -/
theorem parse_bodyFontSize_is_clamped_witness :
    parsedBodyFontSizeOf
        (some (.obj [("version", .num 1), ("style", .obj [("bodyFontSize", .num 999)])])) =
      some (clamp 999 13 24) :=
  parse_bodyFontSize_is_clamped
    (.obj [("version", .num 1), ("style", .obj [("bodyFontSize", .num 999)])])
    (.obj [("bodyFontSize", .num 999)]) 999 rfl rfl rfl rfl rfl

/-! ## C10: the legacy marginMm path, with faithful `in` semantics -/

/-- Property names JavaScript's `in` operator finds on any plain object
through `Object.prototype`, in addition to the object's own keys. -/
def OBJECT_PROTOTYPE_NAMES : List String :=
  ["constructor", "hasOwnProperty", "isPrototypeOf", "propertyIsEnumerable",
   "toLocaleString", "toString", "valueOf", "__defineGetter__",
   "__defineSetter__", "__lookupGetter__", "__lookupSetter__", "__proto__"]

/-- What `isPagePresetKey(parsed.pagePreset) ? parsed.pagePreset : DEFAULT`
selects under JavaScript semantics: a genuine own key gives that preset; an
inherited `Object.prototype` name passes `value in PAGE_PRESETS` via the
prototype chain and selects an object that carries no `widthMm`/`heightMm`;
anything else falls back to the default preset. -/
inductive JsPagePresetRef where
  | preset (key : PagePresetKey)
  | inherited (s : String)
  deriving DecidableEq, Repr

def readPagePresetRefJs (v : Option Json) : JsPagePresetRef :=
  match v with
  | some (.str s) =>
    match parsePagePresetKey s with
    | some k => .preset k
    | none =>
      if OBJECT_PROTOTYPE_NAMES.contains s then .inherited s
      else .preset DEFAULT_PAGE_PRESET
  | _ => .preset DEFAULT_PAGE_PRESET

/-- `preset.widthMm` as the program reads it: `undefined` (none) on the
inherited case. -/
def JsPagePresetRef.widthMm : JsPagePresetRef → Option ℚ
  | .preset k => some (PAGE_PRESETS k).widthMm
  | .inherited _ => none

def JsPagePresetRef.heightMm : JsPagePresetRef → Option ℚ
  | .preset k => some (PAGE_PRESETS k).heightMm
  | .inherited _ => none

/-- `clampHorizontalMarginMm` when the page width may be `undefined`:
`undefined / 2 - 12` is NaN and every `Math.min`/`Math.max` chain holding
NaN is NaN, modelled as `none`. -/
def clampHorizontalMarginMmJs (marginMm : ℚ) : Option ℚ → Option ℚ
  | some pageWidthMm => some (clampHorizontalMarginMm marginMm pageWidthMm)
  | none => none

def clampVerticalMarginMmJs (marginMm : ℚ) : Option ℚ → Option ℚ
  | some pageHeightMm => some (clampVerticalMarginMm marginMm pageHeightMm)
  | none => none

/-- The two margins exactly as `parseStylesetState` computes them
(editor.ts lines 365–386), with the pagePreset membership check given
JavaScript's full `in`-operator semantics: an inherited name selects an
object with undefined dimensions, and both clamps then evaluate to NaN
(`none`). -/
def parsedMarginsJs (parsed : Json) : Option ℚ × Option ℚ :=
  (clampHorizontalMarginMmJs
    (match readFiniteNumber (parsed.get "horizontalMarginMm") with
     | some q => q
     | none =>
       match readFiniteNumber (parsed.get "marginMm") with
       | some q => q
       | none => DEFAULT_HORIZONTAL_MARGIN_MM)
    (readPagePresetRefJs (parsed.get "pagePreset")).widthMm,
   clampVerticalMarginMmJs
    (match readFiniteNumber (parsed.get "verticalMarginMm") with
     | some q => q
     | none =>
       match readFiniteNumber (parsed.get "marginMm") with
       | some q => q
       | none => DEFAULT_VERTICAL_MARGIN_MM)
    (readPagePresetRefJs (parsed.get "pagePreset")).heightMm)

/-- A pagePreset field that passes `value in PAGE_PRESETS` only through the
prototype chain. -/
def jsInheritedPagePreset : Option Json → Bool
  | some (.str s) => (parsePagePresetKey s).isNone && OBJECT_PROTOTYPE_NAMES.contains s
  | _ => false

theorem readPagePresetRefJs_of_not_inherited (v : Option Json)
    (h : jsInheritedPagePreset v = false) :
    readPagePresetRefJs v = .preset (readPagePresetKey v DEFAULT_PAGE_PRESET) := by
  match v with
  | none => rfl
  | some .null => rfl
  | some (.bool b) => rfl
  | some (.num q) => rfl
  | some (.arr es) => rfl
  | some (.obj fs) => rfl
  | some (.str s) =>
    simp only [jsInheritedPagePreset] at h
    rcases hk : parsePagePresetKey s with _ | k
    · rw [hk] at h
      simp only [Option.isNone_none, Bool.true_and] at h
      have h2 : s ∉ OBJECT_PROTOTYPE_NAMES := by simpa using h
      simp [readPagePresetRefJs, readPagePresetKey, hk, h2]
    · simp [readPagePresetRefJs, readPagePresetKey, hk]

/-- C10 counterexample: on a version-1 styleset whose pagePreset field is
the inherited name "toString", the membership check passes through the
prototype chain, the selected object has undefined dimensions, and both
margins come out NaN (`none`) — not the legacy marginMm clamped against a
page preset, which would be 20 for this input. -/
theorem parse_legacy_marginMm_prototype_counterexample :
    parsedMarginsJs
        (.obj [("version", .num 1), ("pagePreset", .str "toString"),
          ("marginMm", .num 20)]) = (none, none) ∧
    clampHorizontalMarginMm 20 (PAGE_PRESETS DEFAULT_PAGE_PRESET).widthMm = 20 ∧
    clampVerticalMarginMm 20 (PAGE_PRESETS DEFAULT_PAGE_PRESET).heightMm = 20 ∧
    ((none : Option ℚ) ≠ some 20) := by
  refine ⟨rfl, ?_, ?_, by simp⟩
  · unfold clampHorizontalMarginMm
    exact clamp_of_mem _ _ _ (by norm_num [MIN_HORIZONTAL_MARGIN_MM])
      (by norm_num [MIN_HORIZONTAL_MARGIN_MM, DEFAULT_PAGE_PRESET, PAGE_PRESETS, le_max_iff])
  · unfold clampVerticalMarginMm
    exact clamp_of_mem _ _ _ (by norm_num [MIN_VERTICAL_MARGIN_MM])
      (by norm_num [MIN_VERTICAL_MARGIN_MM, DEFAULT_PAGE_PRESET, PAGE_PRESETS, le_max_iff])

/-- C10 amended: a version-1 styleset JSON with no finite
`horizontalMarginMm` or `verticalMarginMm` field but a finite legacy
`marginMm` field, and whose `pagePreset` field is not an inherited
`Object.prototype` name, uses that single value — clamped against the
selected page preset's width and height respectively — as both margins;
this holds both for the faithful margin semantics (`parsedMarginsJs`) and
for the typed parse model. -/
theorem parse_legacy_marginMm_used
    (j : Json) (m : ℚ)
    (hrec : j.isRecord = true)
    (hver : j.get "version" = some (.num 1))
    (hh : readFiniteNumber (j.get "horizontalMarginMm") = none)
    (hv : readFiniteNumber (j.get "verticalMarginMm") = none)
    (hm : j.get "marginMm" = some (.num m))
    (hnp : jsInheritedPagePreset (j.get "pagePreset") = false) :
    parsedMarginsJs j =
      (some (clampHorizontalMarginMm m
          (PAGE_PRESETS (readPagePresetKey (j.get "pagePreset") DEFAULT_PAGE_PRESET)).widthMm),
       some (clampVerticalMarginMm m
          (PAGE_PRESETS (readPagePresetKey (j.get "pagePreset") DEFAULT_PAGE_PRESET)).heightMm)) ∧
    parsedMarginsOf (some j) =
      some
        (clampHorizontalMarginMm m
          (PAGE_PRESETS (readPagePresetKey (j.get "pagePreset") DEFAULT_PAGE_PRESET)).widthMm,
         clampVerticalMarginMm m
          (PAGE_PRESETS (readPagePresetKey (j.get "pagePreset") DEFAULT_PAGE_PRESET)).heightMm) := by
  constructor
  · unfold parsedMarginsJs
    rw [readPagePresetRefJs_of_not_inherited _ hnp, hh, hv, hm]
    simp [readFiniteNumber, JsPagePresetRef.widthMm, JsPagePresetRef.heightMm,
      clampHorizontalMarginMmJs, clampVerticalMarginMmJs]
  · have hv1 : isVersion1 (j.get "version") = true := (isVersion1_iff _).mpr hver
    simp [parsedMarginsOf, parseStylesetState, hrec, hv1, hh, hv, hm, Except.toOption]
    simp [readFiniteNumber]

/-- C10 amended witness: a legacy single-margin file with no pagePreset
field imports with marginMm applied to both axes, in both margin models. -/
theorem parse_legacy_marginMm_used_witness :
    (parsedMarginsJs (.obj [("version", .num 1), ("marginMm", .num 20)]) =
      (some (clampHorizontalMarginMm 20
          (PAGE_PRESETS (readPagePresetKey ((Json.obj [("version", .num 1), ("marginMm", .num 20)]).get "pagePreset") DEFAULT_PAGE_PRESET)).widthMm),
       some (clampVerticalMarginMm 20
          (PAGE_PRESETS (readPagePresetKey ((Json.obj [("version", .num 1), ("marginMm", .num 20)]).get "pagePreset") DEFAULT_PAGE_PRESET)).heightMm))) ∧
    parsedMarginsOf (some (.obj [("version", .num 1), ("marginMm", .num 20)])) =
      some
        (clampHorizontalMarginMm 20
          (PAGE_PRESETS (readPagePresetKey ((Json.obj [("version", .num 1), ("marginMm", .num 20)]).get "pagePreset") DEFAULT_PAGE_PRESET)).widthMm,
         clampVerticalMarginMm 20
          (PAGE_PRESETS (readPagePresetKey ((Json.obj [("version", .num 1), ("marginMm", .num 20)]).get "pagePreset") DEFAULT_PAGE_PRESET)).heightMm) :=
  parse_legacy_marginMm_used (.obj [("version", .num 1), ("marginMm", .num 20)]) 20
    rfl rfl rfl rfl rfl rfl

/-! ## Round-trip: serialize then parse (C4) -/

/-- The legal value space of a `StylesetState`: every field already inside
the domain the parser validates against (margins inside the clamp bounds of
the selected page preset, numeric fields inside their ranges, colors
matching the 6-hex-digit pattern; enum fields are legal by typing). -/
def inLegalDomain (s : StylesetState) : Prop :=
  MIN_HORIZONTAL_MARGIN_MM ≤ s.horizontalMarginMm ∧
  s.horizontalMarginMm ≤ max MIN_HORIZONTAL_MARGIN_MM ((PAGE_PRESETS s.pagePreset).widthMm / 2 - 12) ∧
  MIN_VERTICAL_MARGIN_MM ≤ s.verticalMarginMm ∧
  s.verticalMarginMm ≤ max MIN_VERTICAL_MARGIN_MM ((PAGE_PRESETS s.pagePreset).heightMm / 2 - 12) ∧
  13 ≤ s.style.bodyFontSize ∧ s.style.bodyFontSize ≤ 24 ∧
  18 ≤ s.style.headingBaseSize ∧ s.style.headingBaseSize ≤ 36 ∧
  1.25 ≤ s.style.lineHeight ∧ s.style.lineHeight ≤ 2 ∧
  0.7 ≤ s.style.paragraphSpacing ∧ s.style.paragraphSpacing ≤ 1.7 ∧
  -0.02 ≤ s.style.letterSpacing ∧ s.style.letterSpacing ≤ 0.08 ∧
  isColorHex s.style.background = true ∧
  isColorHex s.style.text = true ∧
  isColorHex s.style.accent = true ∧
  MIN_CHROME_FONT_SIZE_PT ≤ s.pageChrome.headerFontSizePt ∧
  s.pageChrome.headerFontSizePt ≤ MAX_CHROME_FONT_SIZE_PT ∧
  MIN_CHROME_FONT_SIZE_PT ≤ s.pageChrome.footerFontSizePt ∧
  s.pageChrome.footerFontSizePt ≤ MAX_CHROME_FONT_SIZE_PT

theorem serialize_isRecord (s : StylesetState) :
    (serializeStylesetState s).isRecord = true := rfl

theorem serialize_get_version (s : StylesetState) :
    (serializeStylesetState s).get "version" = some (.num 1) := rfl

theorem serialize_get_themePreset (s : StylesetState) :
    (serializeStylesetState s).get "themePreset" =
      some (.str (themeSelectionName s.themePreset)) := rfl

theorem serialize_get_pagePreset (s : StylesetState) :
    (serializeStylesetState s).get "pagePreset" =
      some (.str (pagePresetKeyName s.pagePreset)) := rfl

theorem serialize_get_horizontalMarginMm (s : StylesetState) :
    (serializeStylesetState s).get "horizontalMarginMm" =
      some (.num s.horizontalMarginMm) := rfl

theorem serialize_get_verticalMarginMm (s : StylesetState) :
    (serializeStylesetState s).get "verticalMarginMm" =
      some (.num s.verticalMarginMm) := rfl

theorem readThemeSelection_name (t : ThemeSelection) (fb : ThemeSelection) :
    readThemeSelection (some (.str (themeSelectionName t))) fb = t := by
  cases t with
  | preset k => cases k <;> rfl
  | custom => rfl

theorem readPagePresetKey_name (k : PagePresetKey) (fb : PagePresetKey) :
    readPagePresetKey (some (.str (pagePresetKeyName k))) fb = k := by
  cases k <;> rfl

theorem readFontPresetKey_name (k : FontPresetKey) (fb : FontPresetKey) :
    readFontPresetKey (some (.str (fontPresetKeyName k))) fb = k := by
  cases k <;> rfl

theorem readHeaderPosition_name (p : HeaderPosition) (fb : HeaderPosition) :
    readHeaderPosition (some (.str (headerPositionName p))) fb = p := by
  cases p <;> rfl

theorem readFooterPosition_name (p : FooterPosition) (fb : FooterPosition) :
    readFooterPosition (some (.str (footerPositionName p))) fb = p := by
  cases p <;> rfl

theorem readMarginBoxPosition_name (p : MarginBoxPosition) (fb : MarginBoxPosition) :
    readMarginBoxPosition (some (.str (marginBoxPositionName p))) fb = p := by
  cases p <;> rfl

theorem readColor_valid (c : String) (fb : String) (h : isColorHex c = true) :
    readColor (some (.str c)) fb = c := by
  simp [readColor, h]

theorem serialize_get_style (s : StylesetState) :
    (serializeStylesetState s).get "style" = some (serializeStyleJson s.style) := rfl

theorem serialize_get_pageChrome (s : StylesetState) :
    (serializeStylesetState s).get "pageChrome" =
      some (serializePageChromeJson s.pageChrome) := rfl

theorem recordOrEmpty_style (st : StyleState) :
    recordOrEmpty (some (serializeStyleJson st)) = serializeStyleJson st := rfl

theorem recordOrEmpty_pageChrome (pc : PageChromeState) :
    recordOrEmpty (some (serializePageChromeJson pc)) = serializePageChromeJson pc := rfl

theorem style_get_fontFamily (st : StyleState) :
    (serializeStyleJson st).get "fontFamily" = some (.str (fontPresetKeyName st.fontFamily)) := rfl

theorem style_get_headingFamily (st : StyleState) :
    (serializeStyleJson st).get "headingFamily" =
      some (.str (fontPresetKeyName st.headingFamily)) := rfl

theorem style_get_bodyFontSize (st : StyleState) :
    (serializeStyleJson st).get "bodyFontSize" = some (.num st.bodyFontSize) := rfl

theorem style_get_headingBaseSize (st : StyleState) :
    (serializeStyleJson st).get "headingBaseSize" = some (.num st.headingBaseSize) := rfl

theorem style_get_lineHeight (st : StyleState) :
    (serializeStyleJson st).get "lineHeight" = some (.num st.lineHeight) := rfl

theorem style_get_paragraphSpacing (st : StyleState) :
    (serializeStyleJson st).get "paragraphSpacing" = some (.num st.paragraphSpacing) := rfl

theorem style_get_letterSpacing (st : StyleState) :
    (serializeStyleJson st).get "letterSpacing" = some (.num st.letterSpacing) := rfl

theorem style_get_background (st : StyleState) :
    (serializeStyleJson st).get "background" = some (.str st.background) := rfl

theorem style_get_text (st : StyleState) :
    (serializeStyleJson st).get "text" = some (.str st.text) := rfl

theorem style_get_accent (st : StyleState) :
    (serializeStyleJson st).get "accent" = some (.str st.accent) := rfl

theorem chrome_get_headerEnabled (pc : PageChromeState) :
    (serializePageChromeJson pc).get "headerEnabled" = some (.bool pc.headerEnabled) := rfl

theorem chrome_get_headerText (pc : PageChromeState) :
    (serializePageChromeJson pc).get "headerText" = some (.str pc.headerText) := rfl

theorem chrome_get_headerPosition (pc : PageChromeState) :
    (serializePageChromeJson pc).get "headerPosition" =
      some (.str (headerPositionName pc.headerPosition)) := rfl

theorem chrome_get_headerFontSizePt (pc : PageChromeState) :
    (serializePageChromeJson pc).get "headerFontSizePt" = some (.num pc.headerFontSizePt) := rfl

theorem chrome_get_footerEnabled (pc : PageChromeState) :
    (serializePageChromeJson pc).get "footerEnabled" = some (.bool pc.footerEnabled) := rfl

theorem chrome_get_footerText (pc : PageChromeState) :
    (serializePageChromeJson pc).get "footerText" = some (.str pc.footerText) := rfl

theorem chrome_get_footerPosition (pc : PageChromeState) :
    (serializePageChromeJson pc).get "footerPosition" =
      some (.str (footerPositionName pc.footerPosition)) := rfl

theorem chrome_get_footerFontSizePt (pc : PageChromeState) :
    (serializePageChromeJson pc).get "footerFontSizePt" = some (.num pc.footerFontSizePt) := rfl

theorem chrome_get_pageNumbersEnabled (pc : PageChromeState) :
    (serializePageChromeJson pc).get "pageNumbersEnabled" =
      some (.bool pc.pageNumbersEnabled) := rfl

theorem chrome_get_pageNumberPosition (pc : PageChromeState) :
    (serializePageChromeJson pc).get "pageNumberPosition" =
      some (.str (marginBoxPositionName pc.pageNumberPosition)) := rfl

/-- C4: serialize → parse reproduces a `StylesetState` exactly whenever all
its fields already lie within their legal domains. -/
theorem serialize_parse_roundtrip (s : StylesetState) (h : inLegalDomain s) :
    parseStylesetState (some (serializeStylesetState s)) = .ok s := by
  obtain ⟨h1, h2, h3, h4, h5, h6, h7, h8, h9, h10, h11, h12, h13, h14,
    hbg, htx, hac, h15, h16, h17, h18⟩ := h
  have ehm : clampHorizontalMarginMm s.horizontalMarginMm
      (PAGE_PRESETS s.pagePreset).widthMm = s.horizontalMarginMm := by
    unfold clampHorizontalMarginMm
    exact clamp_of_mem _ _ _ h1 h2
  have evm : clampVerticalMarginMm s.verticalMarginMm
      (PAGE_PRESETS s.pagePreset).heightMm = s.verticalMarginMm := by
    unfold clampVerticalMarginMm
    exact clamp_of_mem _ _ _ h3 h4
  have ebf : clamp s.style.bodyFontSize 13 24 = s.style.bodyFontSize :=
    clamp_of_mem _ _ _ h5 h6
  have ehb : clamp s.style.headingBaseSize 18 36 = s.style.headingBaseSize :=
    clamp_of_mem _ _ _ h7 h8
  have elh : clamp s.style.lineHeight 1.25 2 = s.style.lineHeight :=
    clamp_of_mem _ _ _ h9 h10
  have eps : clamp s.style.paragraphSpacing 0.7 1.7 = s.style.paragraphSpacing :=
    clamp_of_mem _ _ _ h11 h12
  have els : clamp s.style.letterSpacing (-0.02) 0.08 = s.style.letterSpacing :=
    clamp_of_mem _ _ _ h13 h14
  have ehf : clampChromeFontSizePt s.pageChrome.headerFontSizePt =
      s.pageChrome.headerFontSizePt := by
    unfold clampChromeFontSizePt
    exact clamp_of_mem _ _ _ h15 h16
  have eff : clampChromeFontSizePt s.pageChrome.footerFontSizePt =
      s.pageChrome.footerFontSizePt := by
    unfold clampChromeFontSizePt
    exact clamp_of_mem _ _ _ h17 h18
  simp only [parseStylesetState, serialize_isRecord, serialize_get_version,
    isVersion1, decide_True, Bool.and_self, if_true,
    serialize_get_themePreset, serialize_get_pagePreset,
    serialize_get_horizontalMarginMm, serialize_get_verticalMarginMm,
    serialize_get_style, serialize_get_pageChrome,
    recordOrEmpty_style, recordOrEmpty_pageChrome,
    style_get_fontFamily, style_get_headingFamily, style_get_bodyFontSize,
    style_get_headingBaseSize, style_get_lineHeight, style_get_paragraphSpacing,
    style_get_letterSpacing, style_get_background, style_get_text, style_get_accent,
    chrome_get_headerEnabled, chrome_get_headerText, chrome_get_headerPosition,
    chrome_get_headerFontSizePt, chrome_get_footerEnabled, chrome_get_footerText,
    chrome_get_footerPosition, chrome_get_footerFontSizePt,
    chrome_get_pageNumbersEnabled, chrome_get_pageNumberPosition,
    readFiniteNumber, Option.getD_some, readBoolean, readString,
    readThemeSelection_name, readPagePresetKey_name, readFontPresetKey_name,
    readHeaderPosition_name, readFooterPosition_name, readMarginBoxPosition_name,
    readColor_valid _ _ hbg, readColor_valid _ _ htx, readColor_valid _ _ hac,
    ehm, evm, ebf, ehb, elh, eps, els, ehf, eff]

def DEFAULT_STYLESET : StylesetState :=
  { themePreset := .preset DEFAULT_THEME_PRESET
    pagePreset := DEFAULT_PAGE_PRESET
    horizontalMarginMm := DEFAULT_HORIZONTAL_MARGIN_MM
    verticalMarginMm := DEFAULT_VERTICAL_MARGIN_MM
    style := DEFAULT_STYLE
    pageChrome := DEFAULT_PAGE_CHROME }

theorem DEFAULT_STYLESET_inLegalDomain : inLegalDomain DEFAULT_STYLESET := by
  have c1 : isColorHex "#ffffff" = true := by decide
  have c2 : isColorHex "#111111" = true := by decide
  unfold inLegalDomain
  norm_num [DEFAULT_STYLESET, DEFAULT_STYLE, DEFAULT_PAGE_CHROME,
    DEFAULT_HORIZONTAL_MARGIN_MM, DEFAULT_VERTICAL_MARGIN_MM,
    MIN_HORIZONTAL_MARGIN_MM, MIN_VERTICAL_MARGIN_MM,
    MIN_CHROME_FONT_SIZE_PT, MAX_CHROME_FONT_SIZE_PT, DEFAULT_CHROME_FONT_SIZE_PT,
    DEFAULT_PAGE_PRESET, PAGE_PRESETS, le_max_iff, c1, c2]

/-- C4 witness: the default styleset lies in the legal domain and
round-trips exactly. -/
theorem serialize_parse_roundtrip_witness :
    inLegalDomain DEFAULT_STYLESET ∧
    parseStylesetState (some (serializeStylesetState DEFAULT_STYLESET)) = .ok DEFAULT_STYLESET :=
  ⟨DEFAULT_STYLESET_inLegalDomain,
   serialize_parse_roundtrip DEFAULT_STYLESET DEFAULT_STYLESET_inLegalDomain⟩

/-! ## CSS content escaping and margin boxes (editor.ts lines 466–549) -/

def escBackslashPass : List Char → List Char
  | [] => []
  | c :: rest =>
    if c = '\\' then '\\' :: '\\' :: escBackslashPass rest
    else c :: escBackslashPass rest

def escQuotePass : List Char → List Char
  | [] => []
  | c :: rest =>
    if c = '"' then '\\' :: '"' :: escQuotePass rest
    else c :: escQuotePass rest

def escNewlinePass : List Char → List Char
  | [] => []
  | '\r' :: '\n' :: rest => '\\' :: 'A' :: ' ' :: escNewlinePass rest
  | '\n' :: rest => '\\' :: 'A' :: ' ' :: escNewlinePass rest
  | c :: rest => c :: escNewlinePass rest

/-- `escapeCssContent` (editor.ts line 466): double backslashes, escape
double quotes, then turn newlines into the CSS `\A ` escape, and wrap the
result in double quotes. -/
def escapeCssContent (value : String) : String :=
  "\"" ++ String.mk (escNewlinePass (escQuotePass (escBackslashPass value.toList))) ++ "\""

/-- The separator inserted between two sources sharing a margin box
(editor.ts line 504); the glyph bytes are exactly those of the source. -/
def MARGIN_SEPARATOR : String := " \" Â· \" "

/-- `serializeMarginContent` (editor.ts line 498): `none` for an empty list,
otherwise the parts reduced with the separator. -/
def serializeMarginContent (parts : List String) : String :=
  match parts with
  | [] => "none"
  | p :: rest => rest.foldl (fun content part => content ++ MARGIN_SEPARATOR ++ part) p

structure MarginBoxRule where
  content : List String
  fontSizePt : Option ℚ
  deriving DecidableEq, Repr

/-- Push one content part into a box and set that box's font size
(`boxes[pos].content.push(part); boxes[pos].fontSizePt = size`). -/
def pushContent (boxes : MarginBoxPosition → MarginBoxRule) (pos : MarginBoxPosition)
    (part : String) (sizePt : ℚ) : MarginBoxPosition → MarginBoxRule :=
  Function.update boxes pos ⟨(boxes pos).content ++ [part], some sizePt⟩

/-- The six-box fan-in of `buildMarginBoxRules` (editor.ts lines 509–535):
header then footer then page-number, each pushed into its routed box when
enabled (header/footer additionally need nonempty trimmed text). -/
def buildMarginBoxes (chrome : PageChromeState) : MarginBoxPosition → MarginBoxRule :=
  let headerText := chrome.headerText.trim
  let footerText := chrome.footerText.trim
  let b0 : MarginBoxPosition → MarginBoxRule := fun _ => ⟨[], none⟩
  let b1 :=
    if chrome.headerEnabled && (headerText != "") then
      pushContent b0 chrome.headerPosition.toBox (escapeCssContent headerText)
        (clampChromeFontSizePt chrome.headerFontSizePt)
    else b0
  let b2 :=
    if chrome.footerEnabled && (footerText != "") then
      pushContent b1 chrome.footerPosition.toBox (escapeCssContent footerText)
        (clampChromeFontSizePt chrome.footerFontSizePt)
    else b1
  if chrome.pageNumbersEnabled then
    pushContent b2 chrome.pageNumberPosition "\"Page \" counter(page)"
      (clampChromeFontSizePt chrome.footerFontSizePt)
  else b2

/-- Digits of the fractional part of a rational, most significant first. -/
def decimalDigitsAux (den : ℕ) : ℕ → ℕ → String
  | _, 0 => ""
  | 0, _ => ""
  | fuel + 1, r => toString (r * 10 / den) ++ decimalDigitsAux den fuel (r * 10 % den)

/-- Decimal rendering of a rational, standing for JavaScript
number-to-string inside interpolated CSS: exact for terminating decimals,
truncated at 17 fractional digits otherwise.  No claim depends on this
rendering. -/
def jsNum (q : ℚ) : String :=
  (if q < 0 then "-" else "") ++
    (toString (q.num.natAbs / q.den) ++
      (if q.num.natAbs % q.den = 0 then ""
       else "." ++ decimalDigitsAux q.den 17 (q.num.natAbs % q.den)))

/-- One emitted margin-box rule (editor.ts lines 541–546). -/
def marginBoxRuleCss (box : MarginBoxPosition) (rule : MarginBoxRule) : String :=
  "\n  @" ++ marginBoxPositionName box ++ " \x7b\n    content: " ++
    serializeMarginContent rule.content ++ ";\n    " ++
    (match rule.fontSizePt with
     | none => ""
     | some q => "font-size: " ++ jsNum q ++ "pt;") ++
    "\n  \x7d"

/-- `Object.entries` order of the `boxes` record literal. -/
def MARGIN_BOX_POSITIONS : List MarginBoxPosition :=
  [.topLeft, .topCenter, .topRight, .bottomLeft, .bottomCenter, .bottomRight]

def marginBoxRulesList (chrome : PageChromeState) : List String :=
  MARGIN_BOX_POSITIONS.map fun box => marginBoxRuleCss box (buildMarginBoxes chrome box)

def buildMarginBoxRules (chrome : PageChromeState) : String :=
  String.intercalate "\n" (marginBoxRulesList chrome)

/-! ## Color helpers for the stylesheet (editor.ts lines 472–496) -/

structure Rgb where
  red : ℕ
  green : ℕ
  blue : ℕ
  deriving DecidableEq, Repr

def hexDigitVal (c : Char) : ℕ :=
  if Char.ofNat 48 ≤ c && c ≤ Char.ofNat 57 then c.toNat - 48
  else if Char.ofNat 97 ≤ c && c ≤ Char.ofNat 102 then c.toNat - 87
  else if Char.ofNat 65 ≤ c && c ≤ Char.ofNat 70 then c.toNat - 55
  else 0

/-- `Number.parseInt(s, 16)`: longest valid prefix, NaN (`none`) when the
first character is not a hex digit. -/
def parseIntHex (cs : List Char) : Option ℕ :=
  match cs with
  | [] => none
  | c :: _ =>
    if isAsciiHexDigitCI c then
      some ((cs.takeWhile isAsciiHexDigitCI).foldl (fun acc d => acc * 16 + hexDigitVal d) 0)
    else none

/-- `hex.replace('#', '')` with a string pattern replaces only the first
occurrence. -/
def removeFirstHash : List Char → List Char
  | [] => []
  | c :: rest => if c = '#' then rest else c :: removeFirstHash rest

def hexToRgb (hex : String) : Rgb :=
  let normalized := removeFirstHash hex.toList
  if normalized.length ≠ 6 then ⟨31, 35, 41⟩
  else
    match parseIntHex normalized with
    | none => ⟨31, 35, 41⟩
    | some parsed => ⟨parsed / 65536 % 256, parsed / 256 % 256, parsed % 256⟩

def withAlpha (hex : String) (alpha : ℚ) : String :=
  "rgba(" ++ toString (hexToRgb hex).red ++ ", " ++ toString (hexToRgb hex).green ++
    ", " ++ toString (hexToRgb hex).blue ++ ", " ++ jsNum alpha ++ ")"

/-! ## buildPagedDocumentCss (editor.ts lines 551–771) -/

structure PagedDocumentCssInput where
  style : StyleState
  pagePreset : PagePresetKey
  horizontalMarginMm : ℚ
  verticalMarginMm : ℚ
  chrome : PageChromeState
  deriving Repr

/-- The template text before the interpolated margin-box rules. -/
def pagedCssHead (preset : PagePreset) (safeVerticalMarginMm safeHorizontalMarginMm : ℚ) : String :=
  "\n@page \x7b\n  size: " ++ jsNum preset.widthMm ++ "mm " ++ jsNum preset.heightMm ++
    "mm;\n  margin: " ++ jsNum safeVerticalMarginMm ++ "mm " ++ jsNum safeHorizontalMarginMm ++
    "mm;\n  "

/-- The template text after the interpolated margin-box rules. -/
def pagedCssTail (style : StyleState) (bodyFamily headingFamily chromeColor : String) : String :=
  "\n\x7d\n\n" ++
  "*,\n*::before,\n*::after \x7b\n  box-sizing: border-box;\n\x7d\n\n" ++
  ".pagedjs_pagebox,\n.pagedjs_pagebox *,\n.document-root,\n.document-root * \x7b\n" ++
  "  -webkit-print-color-adjust: exact;\n  print-color-adjust: exact;\n\x7d\n\n" ++
  ".pagedjs_pages \x7b\n  background: transparent;\n\x7d\n\n" ++
  ".pagedjs_pagebox,\n.pagedjs_pagebox .pagedjs_area,\n.pagedjs_pagebox .pagedjs_margin \x7b\n" ++
  "  background: " ++ style.background ++ ";\n  color: " ++ style.text ++ ";\n\x7d\n\n" ++
  ".pagedjs_pagebox \x7b\n" ++
  "  box-shadow: 0 32px 60px rgba(0, 0, 0, 0.28), inset 0 1px 0 rgba(255, 255, 255, 0.55);\n" ++
  "  border-radius: 24px;\n  overflow: hidden;\n\x7d\n\n" ++
  ".pagedjs_margin \x7b\n  font-family: " ++ bodyFamily ++ ";\n  font-size: 9pt;\n" ++
  "  letter-spacing: 0.05em;\n  color: " ++ chromeColor ++ ";\n\x7d\n\n" ++
  ".document-root \x7b\n  color: " ++ style.text ++ ";\n  font-family: " ++ bodyFamily ++
  ";\n  font-size: " ++ jsNum style.bodyFontSize ++ "px;\n  line-height: " ++
  jsNum style.lineHeight ++ ";\n  letter-spacing: " ++ jsNum style.letterSpacing ++
  "em;\n\x7d\n\n" ++
  ".document-root .markdown-body > :first-child \x7b\n  margin-top: 0;\n\x7d\n\n" ++
  ".document-root .markdown-body > :last-child \x7b\n  margin-bottom: 0;\n\x7d\n\n" ++
  ".document-root .markdown-body h1,\n.document-root .markdown-body h2,\n" ++
  ".document-root .markdown-body h3,\n.document-root .markdown-body h4 \x7b\n" ++
  "  font-family: " ++ headingFamily ++ ";\n  line-height: 1.1;\n  letter-spacing: -0.03em;\n" ++
  "  margin: " ++ jsNum (style.paragraphSpacing * 1.45) ++ "rem 0 " ++
  jsNum (style.paragraphSpacing * 0.6) ++ "rem;\n  break-after: avoid;\n" ++
  "  page-break-after: avoid;\n\x7d\n\n" ++
  ".document-root .markdown-body h1 \x7b\n  font-size: " ++
  jsNum (style.headingBaseSize * 1.625) ++ "px;\n\x7d\n\n" ++
  ".document-root .markdown-body h2 \x7b\n  font-size: " ++
  jsNum (style.headingBaseSize * 1.25) ++ "px;\n\x7d\n\n" ++
  ".document-root .markdown-body h3 \x7b\n  font-size: " ++
  jsNum style.headingBaseSize ++ "px;\n\x7d\n\n" ++
  ".document-root .markdown-body h4 \x7b\n  font-size: " ++
  jsNum (style.headingBaseSize * 0.82) ++ "px;\n\x7d\n\n" ++
  ".document-root .markdown-body h5 \x7b\n  font-size: " ++
  jsNum (style.headingBaseSize * 0.68) ++ "px;\n\x7d\n\n" ++
  ".document-root .markdown-body h6 \x7b\n  font-size: " ++
  jsNum (style.headingBaseSize * 0.58) ++ "px;\n\x7d\n\n" ++
  ".document-root .markdown-body p,\n.document-root .markdown-body ul,\n" ++
  ".document-root .markdown-body ol,\n.document-root .markdown-body blockquote,\n" ++
  ".document-root .markdown-body pre,\n.document-root .markdown-body table,\n" ++
  ".document-root .markdown-body hr \x7b\n  margin: 0 0 " ++
  jsNum style.paragraphSpacing ++ "rem;\n\x7d\n\n" ++
  ".document-root .markdown-body p,\n.document-root .markdown-body li \x7b\n" ++
  "  orphans: 3;\n  widows: 3;\n\x7d\n\n" ++
  ".document-root .markdown-body a \x7b\n  color: " ++ style.accent ++ ";\n\x7d\n\n" ++
  ".document-root .markdown-body strong \x7b\n  color: color-mix(in srgb, " ++
  style.text ++ " 84%, " ++ style.accent ++ " 16%);\n\x7d\n\n" ++
  ".document-root .markdown-body hr \x7b\n  border: 0;\n" ++
  "  border-top: 1px solid color-mix(in srgb, " ++ style.accent ++
  " 35%, #ffffff 35%);\n  break-after: avoid;\n\x7d\n\n" ++
  ".document-root .markdown-body blockquote \x7b\n  margin-left: 0;\n" ++
  "  padding: 0.4rem 0 0.4rem 1rem;\n  border-left: 3px solid " ++ style.accent ++
  ";\n  color: color-mix(in srgb, " ++ style.text ++
  " 82%, #ffffff 18%);\n  break-inside: avoid;\n\x7d\n\n" ++
  ".document-root .markdown-body ul,\n.document-root .markdown-body ol \x7b\n" ++
  "  padding-left: 1.3rem;\n\x7d\n\n" ++
  ".document-root .markdown-body li + li \x7b\n  margin-top: 0.4rem;\n\x7d\n\n" ++
  ".document-root .markdown-body code \x7b\n" ++
  "  font-family: \x27IBM Plex Mono\x27, \x27SFMono-Regular\x27, Consolas, monospace;\n" ++
  "  font-size: 0.92em;\n  background: color-mix(in srgb, " ++ style.accent ++
  " 10%, white 72%);\n  padding: 0.12rem 0.32rem;\n  border-radius: 0.35rem;\n\x7d\n\n" ++
  ".document-root .markdown-body pre \x7b\n  overflow: hidden;\n  padding: 1rem 1.1rem;\n" ++
  "  border-radius: 1rem;\n  background: #201b19;\n  color: #f7f1e3;\n" ++
  "  break-inside: avoid;\n  white-space: pre-wrap;\n\x7d\n\n" ++
  ".document-root .markdown-body pre code \x7b\n  background: transparent;\n" ++
  "  color: inherit;\n  padding: 0;\n  white-space: inherit;\n\x7d\n\n" ++
  ".document-root .markdown-body table \x7b\n  width: 100%;\n  border-collapse: collapse;\n" ++
  "  overflow: hidden;\n  border-radius: 1rem;\n  break-inside: auto;\n\x7d\n\n" ++
  ".document-root .markdown-body thead \x7b\n  display: table-header-group;\n\x7d\n\n" ++
  ".document-root .markdown-body tr,\n.document-root .markdown-body img,\n" ++
  ".document-root .markdown-body figure \x7b\n  break-inside: avoid;\n\x7d\n\n" ++
  ".document-root .markdown-body th,\n.document-root .markdown-body td \x7b\n" ++
  "  padding: 0.75rem 0.85rem;\n  border: 1px solid color-mix(in srgb, " ++ style.text ++
  " 12%, white 72%);\n  text-align: left;\n  vertical-align: top;\n\x7d\n\n" ++
  ".document-root .markdown-body th \x7b\n  background: color-mix(in srgb, " ++
  style.accent ++ " 12%, white 72%);\n\x7d\n\n" ++
  "@media print \x7b\n  .pagedjs_pagebox \x7b\n    box-shadow: none;\n" ++
  "    border-radius: 0;\n  \x7d\n\x7d\n"

def buildPagedDocumentCss (inp : PagedDocumentCssInput) : String :=
  pagedCssHead (PAGE_PRESETS inp.pagePreset)
      (clampVerticalMarginMm inp.verticalMarginMm (PAGE_PRESETS inp.pagePreset).heightMm)
      (clampHorizontalMarginMm inp.horizontalMarginMm (PAGE_PRESETS inp.pagePreset).widthMm) ++
    buildMarginBoxRules inp.chrome ++
    pagedCssTail inp.style (BODY_FONT_PRESETS inp.style.fontFamily).family
      (HEADING_FONT_PRESETS inp.style.headingFamily).family
      (withAlpha inp.style.text 0.72)

/-! ## C5: the six-box fan-in -/

/-- A header source is active when enabled with nonempty trimmed text
(spec: an "active source"). -/
def headerSourceActive (chrome : PageChromeState) : Bool :=
  chrome.headerEnabled && (chrome.headerText.trim != "")

def footerSourceActive (chrome : PageChromeState) : Bool :=
  chrome.footerEnabled && (chrome.footerText.trim != "")

/-- Claim-side description of a box's content: the active sources routed to
the position, concatenated in the fixed order header, footer, page-number. -/
def marginBoxSources (chrome : PageChromeState) (pos : MarginBoxPosition) : List String :=
  (if headerSourceActive chrome && (pos == chrome.headerPosition.toBox) then
    [escapeCssContent chrome.headerText.trim]
   else []) ++
  (if footerSourceActive chrome && (pos == chrome.footerPosition.toBox) then
    [escapeCssContent chrome.footerText.trim]
   else []) ++
  (if chrome.pageNumbersEnabled && (pos == chrome.pageNumberPosition) then
    ["\"Page \" counter(page)"]
   else [])

/-- Header boxes are on the top row, footer boxes on the bottom row, so a
header and a footer never land in the same margin box. -/
theorem headerBox_ne_footerBox (hp : HeaderPosition) (fp : FooterPosition) :
    hp.toBox ≠ fp.toBox := by
  cases hp <;> cases fp <;> decide

theorem buildMarginBoxes_content (chrome : PageChromeState) (pos : MarginBoxPosition) :
    (buildMarginBoxes chrome pos).content = marginBoxSources chrome pos := by
  have hnef := headerBox_ne_footerBox chrome.headerPosition chrome.footerPosition
  unfold buildMarginBoxes marginBoxSources pushContent headerSourceActive footerSourceActive
  by_cases hH : (chrome.headerEnabled && (chrome.headerText.trim != "")) = true <;>
    by_cases hF : (chrome.footerEnabled && (chrome.footerText.trim != "")) = true <;>
      by_cases hP : chrome.pageNumbersEnabled = true <;>
        simp only [hH, hF, hP, Bool.false_and, Bool.true_and, if_true, if_false,
          Bool.and_eq_true, beq_iff_eq, Function.update_apply, Bool.not_eq_true] <;>
        split_ifs <;>
        simp_all [Function.update_apply]

theorem marginBoxSources_length_le_two (chrome : PageChromeState) (pos : MarginBoxPosition) :
    (marginBoxSources chrome pos).length ≤ 2 := by
  have hnef := headerBox_ne_footerBox chrome.headerPosition chrome.footerPosition
  unfold marginBoxSources
  by_cases h1 : (headerSourceActive chrome && (pos == chrome.headerPosition.toBox)) = true <;>
    by_cases h2 : (footerSourceActive chrome && (pos == chrome.footerPosition.toBox)) = true <;>
      by_cases h3 : (chrome.pageNumbersEnabled && (pos == chrome.pageNumberPosition)) = true <;>
        simp_all [Bool.and_eq_true, beq_iff_eq] <;>
        split_ifs <;>
        simp_all

theorem buildMarginBoxes_pageNumber_fontSize (chrome : PageChromeState)
    (h : chrome.pageNumbersEnabled = true) :
    (buildMarginBoxes chrome chrome.pageNumberPosition).fontSizePt =
      some (clampChromeFontSizePt chrome.footerFontSizePt) := by
  unfold buildMarginBoxes pushContent
  simp [h, Function.update_same]

theorem serializeMarginContent_nil : serializeMarginContent [] = "none" := rfl

theorem serializeMarginContent_pair (a b : String) :
    serializeMarginContent [a, b] = a ++ MARGIN_SEPARATOR ++ b := rfl

/-- C5: for every PageChromeState, the stylesheet of `buildPagedDocumentCss`
carries the margin-box rules, one per each of the 6 positions; each box's
content is the concatenation, in the fixed order header then footer then
page-number, of the active sources routed to it (a header/footer source is
active when enabled with nonempty trimmed text); two sources sharing a box
are joined with the visible separator glyph; a box with no source renders
`content: none`; and the page-number box uses the footer's configured
(clamped) font size. -/
theorem buildPagedDocumentCss_margin_boxes (chrome : PageChromeState) :
    (MARGIN_BOX_POSITIONS.length = 6 ∧ MARGIN_BOX_POSITIONS.Nodup ∧
      (∀ pos : MarginBoxPosition, pos ∈ MARGIN_BOX_POSITIONS) ∧
      marginBoxRulesList chrome =
        MARGIN_BOX_POSITIONS.map fun box => marginBoxRuleCss box (buildMarginBoxes chrome box)) ∧
    (∀ pos, (buildMarginBoxes chrome pos).content = marginBoxSources chrome pos) ∧
    (∀ pos, (buildMarginBoxes chrome pos).content.length ≤ 2) ∧
    (∀ pos, marginBoxSources chrome pos = [] →
      serializeMarginContent (buildMarginBoxes chrome pos).content = "none") ∧
    (∀ a b, serializeMarginContent [a, b] = a ++ MARGIN_SEPARATOR ++ b) ∧
    (chrome.pageNumbersEnabled = true →
      (buildMarginBoxes chrome chrome.pageNumberPosition).fontSizePt =
        some (clampChromeFontSizePt chrome.footerFontSizePt)) ∧
    (∀ inp : PagedDocumentCssInput,
      ∃ before after,
        buildPagedDocumentCss inp = before ++ buildMarginBoxRules inp.chrome ++ after) := by
  refine ⟨⟨rfl, by decide, fun pos => by cases pos <;> decide, rfl⟩,
    buildMarginBoxes_content chrome, ?_, ?_, ?_, ?_, ?_⟩
  · intro pos
    rw [buildMarginBoxes_content]
    exact marginBoxSources_length_le_two chrome pos
  · intro pos h
    rw [buildMarginBoxes_content, h, serializeMarginContent_nil]
  · exact serializeMarginContent_pair
  · exact buildMarginBoxes_pageNumber_fontSize chrome
  · intro inp
    exact ⟨_, _, rfl⟩

/-- C5 witness: the separator and font-size conjuncts instantiated on the
default chrome with an enabled header sharing the page-number corner. -/
theorem buildPagedDocumentCss_margin_boxes_witness :
    (buildMarginBoxes DEFAULT_PAGE_CHROME DEFAULT_PAGE_CHROME.pageNumberPosition).fontSizePt =
      some (clampChromeFontSizePt DEFAULT_PAGE_CHROME.footerFontSizePt) :=
  (buildPagedDocumentCss_margin_boxes DEFAULT_PAGE_CHROME).2.2.2.2.2.1 rfl

/-! ## Markdown toolbar actions (editor.ts lines 773–905)

Text is modelled as `List Char` with natural-number selection offsets;
`String.prototype.slice` with in-range arguments is take/drop. -/

def chars (s : String) : List Char := s.toList

structure MarkdownSelectionInput where
  markdown : List Char
  selectionStart : ℕ
  selectionEnd : ℕ
  deriving DecidableEq, Repr

structure MarkdownEditResult where
  markdown : List Char
  selectionStart : ℕ
  selectionEnd : ℕ
  deriving DecidableEq, Repr

/-- `text.slice(s, e)` for 0 ≤ s ≤ e (clamped at the text length). -/
def jsSlice (l : List Char) (s e : ℕ) : List Char := (l.take e).drop s

def replaceSelection (markdown : List Char) (selectionStart selectionEnd : ℕ)
    (replacement : List Char) (nextSelectionStart nextSelectionEnd : ℕ) : MarkdownEditResult :=
  ⟨markdown.take selectionStart ++ replacement ++ markdown.drop selectionEnd,
   nextSelectionStart, nextSelectionEnd⟩

/-- The content used by a wrap action: the selection, or the placeholder
when the selection is empty (`selected || placeholder`). -/
def wrapContent (markdown : List Char) (selectionStart selectionEnd : ℕ)
    (placeholder : List Char) : List Char :=
  if (jsSlice markdown selectionStart selectionEnd).isEmpty then placeholder
  else jsSlice markdown selectionStart selectionEnd

def wrapSelection (markdown : List Char) (selectionStart selectionEnd : ℕ)
    (pre suf placeholder : List Char) : MarkdownEditResult :=
  let content := wrapContent markdown selectionStart selectionEnd placeholder
  let replacement := pre ++ content ++ suf
  replaceSelection markdown selectionStart selectionEnd replacement
    (selectionStart + pre.length)
    (selectionStart + pre.length + content.length)

/-- `selected.split('\n')`. -/
def splitOnNewline : List Char → List (List Char)
  | [] => [[]]
  | '\n' :: rest => [] :: splitOnNewline rest
  | c :: rest =>
    match splitOnNewline rest with
    | [] => [[c]]
    | line :: more => (c :: line) :: more

def prefixLines (markdown : List Char) (selectionStart selectionEnd : ℕ)
    (linePre : ℕ → List Char) (fallbackText : List Char) : MarkdownEditResult :=
  let selectedRaw := jsSlice markdown selectionStart selectionEnd
  let selected := if selectedRaw.isEmpty then fallbackText else selectedRaw
  let lines := splitOnNewline selected
  let replacement :=
    List.intercalate (chars "\n") (lines.enum.map fun p => linePre p.1 ++ p.2)
  replaceSelection markdown selectionStart selectionEnd replacement
    selectionStart (selectionStart + replacement.length)

inductive MarkdownActionKey
  | heading
  | bold
  | italic
  | link
  | quote
  | bulletedList
  | numberedList
  | codeBlock
  | table
  | rule
  deriving DecidableEq, Repr

def TABLE_BOILERPLATE : List Char :=
  chars "| Column | Details |\n| --- | --- |\n| Item | Value |"

def applyMarkdownAction (input : MarkdownSelectionInput) (action : MarkdownActionKey) :
    MarkdownEditResult :=
  match action with
  | .heading =>
    prefixLines input.markdown input.selectionStart input.selectionEnd
      (fun _ => chars "## ") (chars "Section title")
  | .bold =>
    wrapSelection input.markdown input.selectionStart input.selectionEnd
      (chars "**") (chars "**") (chars "bold text")
  | .italic =>
    wrapSelection input.markdown input.selectionStart input.selectionEnd
      (chars "*") (chars "*") (chars "emphasis")
  | .link =>
    wrapSelection input.markdown input.selectionStart input.selectionEnd
      (chars "[") (chars "](https://example.com)") (chars "link text")
  | .quote =>
    prefixLines input.markdown input.selectionStart input.selectionEnd
      (fun _ => chars "> ") (chars "Quoted text")
  | .bulletedList =>
    prefixLines input.markdown input.selectionStart input.selectionEnd
      (fun _ => chars "- ") (chars "List item")
  | .numberedList =>
    prefixLines input.markdown input.selectionStart input.selectionEnd
      (fun index => chars (toString (index + 1) ++ ". ")) (chars "List item")
  | .codeBlock =>
    let selected :=
      if (jsSlice input.markdown input.selectionStart input.selectionEnd).isEmpty then
        chars "const message = \"Hello world\""
      else jsSlice input.markdown input.selectionStart input.selectionEnd
    let replacement := chars "\x60\x60\x60ts\n" ++ selected ++ chars "\n\x60\x60\x60"
    replaceSelection input.markdown input.selectionStart input.selectionEnd replacement
      (input.selectionStart + 6) (input.selectionStart + 6 + selected.length)
  | .table =>
    replaceSelection input.markdown input.selectionStart input.selectionEnd TABLE_BOILERPLATE
      input.selectionStart (input.selectionStart + TABLE_BOILERPLATE.length)
  | .rule =>
    let pre :=
      if decide (0 < input.selectionStart) &&
          !((input.markdown.take input.selectionStart).getLast? == some '\n') then
        chars "\n"
      else []
    let suf :=
      if decide (input.selectionEnd < input.markdown.length) &&
          !((input.markdown.drop input.selectionEnd).head? == some '\n') then
        chars "\n"
      else []
    let replacement := pre ++ chars "\n---\n" ++ suf
    let nextStart := input.selectionStart + replacement.length
    replaceSelection input.markdown input.selectionStart input.selectionEnd replacement
      nextStart nextStart

theorem jsSlice_middle (A B C : List Char) :
    jsSlice (A ++ B ++ C) A.length (A.length + B.length) = B := by
  unfold jsSlice
  rw [List.append_assoc, List.take_append, List.take_left, List.drop_left]

theorem wrapSelection_spec (md : List Char) (s e : ℕ) (pre suf ph : List Char)
    (hse : s ≤ e) (hel : e ≤ md.length) :
    (wrapSelection md s e pre suf ph).markdown =
        md.take s ++ pre ++ wrapContent md s e ph ++ suf ++ md.drop e ∧
      (wrapSelection md s e pre suf ph).selectionStart = s + pre.length ∧
      (wrapSelection md s e pre suf ph).selectionEnd =
        s + pre.length + (wrapContent md s e ph).length ∧
      jsSlice (wrapSelection md s e pre suf ph).markdown
          ((wrapSelection md s e pre suf ph).selectionStart)
          ((wrapSelection md s e pre suf ph).selectionEnd) =
        wrapContent md s e ph := by
  have hA : (md.take s ++ pre).length = s + pre.length := by
    rw [List.length_append, List.length_take, min_eq_left (hse.trans hel)]
  have hmk : (wrapSelection md s e pre suf ph).markdown =
      (md.take s ++ pre) ++ wrapContent md s e ph ++ (suf ++ md.drop e) := by
    simp [wrapSelection, replaceSelection, List.append_assoc]
  refine ⟨by rw [hmk]; simp [List.append_assoc], rfl, rfl, ?_⟩
  show jsSlice (wrapSelection md s e pre suf ph).markdown (s + pre.length)
      (s + pre.length + (wrapContent md s e ph).length) = wrapContent md s e ph
  rw [hmk, ← hA]
  exact jsSlice_middle _ _ _

/-- The wrap family's prefix, suffix and placeholder table. -/
def wrapParams : MarkdownActionKey → Option (List Char × List Char × List Char)
  | .bold => some (chars "**", chars "**", chars "bold text")
  | .italic => some (chars "*", chars "*", chars "emphasis")
  | .link => some (chars "[", chars "](https://example.com)", chars "link text")
  | _ => none

/-- C8: each wrap-family action (bold, italic, link) substitutes
prefix ++ content ++ suffix for the selected range, where content is the
selection or the placeholder when the selection is empty, and the new
selection covers exactly the content, excluding the delimiters; bold on
"Hello world" with selection [6,11] gives "Hello **world**" selecting only
"world", and numbered-list on "First\n\x53econd" fully selected gives
"1. First\n2. Second". -/
theorem wrap_actions_characterization :
    (∀ (md : List Char) (s e : ℕ) (act : MarkdownActionKey) (pre suf ph : List Char),
      wrapParams act = some (pre, suf, ph) → s ≤ e → e ≤ md.length →
      (applyMarkdownAction ⟨md, s, e⟩ act).markdown =
          md.take s ++ pre ++ wrapContent md s e ph ++ suf ++ md.drop e ∧
        (applyMarkdownAction ⟨md, s, e⟩ act).selectionStart = s + pre.length ∧
        (applyMarkdownAction ⟨md, s, e⟩ act).selectionEnd =
          s + pre.length + (wrapContent md s e ph).length ∧
        jsSlice (applyMarkdownAction ⟨md, s, e⟩ act).markdown
            ((applyMarkdownAction ⟨md, s, e⟩ act).selectionStart)
            ((applyMarkdownAction ⟨md, s, e⟩ act).selectionEnd) =
          wrapContent md s e ph) ∧
    applyMarkdownAction ⟨chars "Hello world", 6, 11⟩ .bold =
      ⟨chars "Hello **world**", 8, 13⟩ ∧
    applyMarkdownAction ⟨chars "First\nSecond", 0, 12⟩ .numberedList =
      ⟨chars "1. First\n2. Second", 0, 18⟩ := by
  refine ⟨?_, by decide, by decide⟩
  rintro md s e act pre suf ph hact hse hel
  cases act <;> simp only [wrapParams, Option.some.injEq, Prod.mk.injEq] at hact <;>
    try exact Option.noConfusion hact
  case bold =>
    obtain ⟨rfl, rfl, rfl⟩ := hact
    exact wrapSelection_spec md s e _ _ _ hse hel
  case italic =>
    obtain ⟨rfl, rfl, rfl⟩ := hact
    exact wrapSelection_spec md s e _ _ _ hse hel
  case link =>
    obtain ⟨rfl, rfl, rfl⟩ := hact
    exact wrapSelection_spec md s e _ _ _ hse hel

/-- C8 witness: the characterization applied to the bold action on "abc"
with selection [1,2]. -/
theorem wrap_actions_characterization_witness :
    (applyMarkdownAction ⟨chars "abc", 1, 2⟩ .bold).markdown =
        (chars "abc").take 1 ++ chars "**" ++ wrapContent (chars "abc") 1 2 (chars "bold text") ++
          chars "**" ++ (chars "abc").drop 2 :=
  (wrap_actions_characterization.1 (chars "abc") 1 2 .bold (chars "**") (chars "**")
    (chars "bold text") rfl (by decide) (by decide)).1

/-- C6 counterexample: the table action on "a" with a caret at offset 1
inserts no leading newline even though the text before the caret does not
end with one, and the resulting selection spans the inserted boilerplate
rather than being a collapsed cursor. -/
theorem table_action_counterexample :
    applyMarkdownAction ⟨chars "a", 1, 1⟩ .table =
        ⟨chars "a" ++ TABLE_BOILERPLATE, 1, 1 + TABLE_BOILERPLATE.length⟩ ∧
    (applyMarkdownAction ⟨chars "a", 1, 1⟩ .table).selectionStart ≠
      (applyMarkdownAction ⟨chars "a", 1, 1⟩ .table).selectionEnd := by
  exact ⟨by decide, by decide⟩

/-- Leading newline inserted by the rule action: only when the selection
start is positive and the preceding text does not already end with one. -/
def rulePre (md : List Char) (s : ℕ) : List Char :=
  if 0 < s ∧ (md.take s).getLast? ≠ some '\n' then chars "\n" else []

/-- Trailing newline inserted by the rule action: only when the selection
end is strictly inside the text and the following text does not already
begin with one. -/
def ruleSuf (md : List Char) (e : ℕ) : List Char :=
  if e < md.length ∧ (md.drop e).head? ≠ some '\n' then chars "\n" else []

/-- C6 amended: the rule action adds a leading newline only when the
selection start is positive and the preceding text does not end with a
newline, a trailing newline only when the selection end lies strictly
inside the text and the following text does not begin with one, and leaves
a collapsed cursor immediately after the inserted content; the table
action inserts its boilerplate verbatim with no newline adjustment and the
resulting selection spans exactly the inserted table. -/
theorem table_and_rule_actions_characterization :
    (∀ (md : List Char) (s e : ℕ), s ≤ e → e ≤ md.length →
      (applyMarkdownAction ⟨md, s, e⟩ .rule).markdown =
          md.take s ++ (rulePre md s ++ chars "\n---\n" ++ ruleSuf md e) ++ md.drop e ∧
        (applyMarkdownAction ⟨md, s, e⟩ .rule).selectionStart =
          s + (rulePre md s ++ chars "\n---\n" ++ ruleSuf md e).length ∧
        (applyMarkdownAction ⟨md, s, e⟩ .rule).selectionEnd =
          (applyMarkdownAction ⟨md, s, e⟩ .rule).selectionStart) ∧
    (∀ (md : List Char) (s e : ℕ), s ≤ e → e ≤ md.length →
      (applyMarkdownAction ⟨md, s, e⟩ .table).markdown =
          md.take s ++ TABLE_BOILERPLATE ++ md.drop e ∧
        (applyMarkdownAction ⟨md, s, e⟩ .table).selectionStart = s ∧
        (applyMarkdownAction ⟨md, s, e⟩ .table).selectionEnd = s + TABLE_BOILERPLATE.length ∧
        jsSlice (applyMarkdownAction ⟨md, s, e⟩ .table).markdown s
            (s + TABLE_BOILERPLATE.length) =
          TABLE_BOILERPLATE) := by
  constructor
  · rintro md s e hse hel
    have hpre : (if decide (0 < s) && !((md.take s).getLast? == some '\n') then
        chars "\n" else []) = rulePre md s := by
      unfold rulePre
      by_cases h1 : 0 < s <;> by_cases h2 : (md.take s).getLast? = some '\n' <;>
        simp [h1, h2]
    have hsuf : (if decide (e < md.length) && !((md.drop e).head? == some '\n') then
        chars "\n" else []) = ruleSuf md e := by
      unfold ruleSuf
      by_cases h1 : e < md.length <;> by_cases h2 : (md.drop e).head? = some '\n' <;>
        simp [h1, h2]
    refine ⟨?_, ?_, ?_⟩ <;>
      simp only [applyMarkdownAction, replaceSelection, hpre, hsuf]
  · rintro md s e hse hel
    have hA : (md.take s).length = s := by
      rw [List.length_take]
      exact min_eq_left (hse.trans hel)
    refine ⟨rfl, rfl, rfl, ?_⟩
    show jsSlice (md.take s ++ TABLE_BOILERPLATE ++ md.drop e) s
        (s + TABLE_BOILERPLATE.length) = TABLE_BOILERPLATE
    have hmid := jsSlice_middle (md.take s) TABLE_BOILERPLATE (md.drop e)
    rw [hA] at hmid
    exact hmid

/-- C6 amended witness: the characterization applied on "ab" with the caret
at offset 1 for both actions. -/
theorem table_and_rule_actions_characterization_witness :
    ((applyMarkdownAction ⟨chars "ab", 1, 1⟩ .rule).markdown =
        (chars "ab").take 1 ++ (rulePre (chars "ab") 1 ++ chars "\n---\n" ++ ruleSuf (chars "ab") 1) ++
          (chars "ab").drop 1) ∧
    ((applyMarkdownAction ⟨chars "ab", 1, 1⟩ .table).markdown =
        (chars "ab").take 1 ++ TABLE_BOILERPLATE ++ (chars "ab").drop 1) :=
  ⟨(table_and_rule_actions_characterization.1 (chars "ab") 1 1 (by decide) (by decide)).1,
   (table_and_rule_actions_characterization.2 (chars "ab") 1 1 (by decide) (by decide)).1⟩

/-! ## PDF image-slicing planner (spec §4.4) -/

structure PdfImagePlanInput where
  canvasWidthPx : ℚ
  canvasHeightPx : ℚ
  pageWidthMm : ℚ
  pageHeightMm : ℚ
  marginMm : ℚ
  deriving DecidableEq, Repr

structure PdfImagePlan where
  safeMarginMm : ℚ
  printableWidthMm : ℚ
  printableHeightMm : ℚ
  renderedHeightMm : ℚ
  offsetsYMm : List ℚ
  deriving DecidableEq, Repr

/-- Modelled from the spec: the do-while offset loop of `buildPdfImagePlan`.
The implementation of `buildPdfImagePlan` is code of this repository that is
not under `src/` — only its unit test (`test/setup.ts`) and its caller
(`App.tsx`) are — so the loop follows spec §4.4: page 1's offset is the
margin, each later offset is `heightLeft - renderedHeightMm + safeMarginMm`,
and emission continues while `heightLeft > 0` tested after subtracting one
page's printable height.  The fuel argument only bounds the recursion and
never binds when the printable height is positive. -/
def pdfPlanOffsets (safeMarginMm renderedHeightMm printableHeightMm : ℚ) :
    ℕ → ℚ → ℚ → List ℚ
  | 0, offsetY, _ => [offsetY]
  | fuel + 1, offsetY, heightLeft =>
    let heightLeft2 := heightLeft - printableHeightMm
    if 0 < heightLeft2 then
      offsetY ::
        pdfPlanOffsets safeMarginMm renderedHeightMm printableHeightMm fuel
          (heightLeft2 - renderedHeightMm + safeMarginMm) heightLeft2
    else [offsetY]

/-- Modelled from the spec: `buildPdfImagePlan` (spec §4.4).  The margin is
clamped as in the spec's shared-margin bound `max(8, min(width, height)/2 -
12)`; printable width/height subtract the clamped margin from each side;
the rendered height preserves the canvas aspect ratio scaled to the
printable width, with a zero-width canvas degrading to 0 instead of a
division by zero. -/
def buildPdfImagePlan (input : PdfImagePlanInput) : PdfImagePlan :=
  let safeMarginMm :=
    clamp input.marginMm 8 (max 8 (min input.pageWidthMm input.pageHeightMm / 2 - 12))
  let printableWidthMm := input.pageWidthMm - safeMarginMm * 2
  let printableHeightMm := input.pageHeightMm - safeMarginMm * 2
  let renderedHeightMm :=
    if input.canvasWidthPx = 0 then 0
    else input.canvasHeightPx * printableWidthMm / input.canvasWidthPx
  { safeMarginMm := safeMarginMm
    printableWidthMm := printableWidthMm
    printableHeightMm := printableHeightMm
    renderedHeightMm := renderedHeightMm
    offsetsYMm :=
      pdfPlanOffsets safeMarginMm renderedHeightMm printableHeightMm
        ((⌈renderedHeightMm / printableHeightMm⌉).toNat + 1) safeMarginMm renderedHeightMm }

theorem pdfPlanOffsets_length (m r p : ℚ) (hp : 0 < p) :
    ∀ (fuel : ℕ) (off hl : ℚ), ⌈hl / p⌉ ≤ (fuel : ℤ) + 1 →
      (pdfPlanOffsets m r p fuel off hl).length = max 1 ⌈hl / p⌉.toNat := by
  intro fuel
  induction fuel with
  | zero =>
    intro off hl hfuel
    simp only [pdfPlanOffsets, List.length_singleton]
    omega
  | succ n ih =>
    intro off hl hfuel
    by_cases h2 : 0 < hl - p
    · have hdiv : (hl - p) / p = hl / p - 1 := by
        field_simp
      have hceil : ⌈(hl - p) / p⌉ = ⌈hl / p⌉ - 1 := by
        rw [hdiv, Int.ceil_sub_one]
      have h1lt : (1 : ℚ) < hl / p := by
        rw [lt_div_iff₀ hp]
        linarith
      have hge2 : (1 : ℤ) < ⌈hl / p⌉ := by
        rw [Int.lt_ceil]
        exact_mod_cast h1lt
      have hrec := ih (hl - p - r + m) (hl - p) (by rw [hceil]; push_cast at hfuel ⊢; omega)
      simp only [pdfPlanOffsets, h2, if_true, List.length_cons]
      rw [hrec, hceil]
      omega
    · have hle1 : ⌈hl / p⌉ ≤ 1 := by
        rw [Int.ceil_le]
        push_cast
        rw [div_le_one hp]
        linarith
      simp only [pdfPlanOffsets, h2, if_false, List.length_singleton]
      omega

theorem buildPdfImagePlan_offsets_length (inp : PdfImagePlanInput)
    (hp : 0 < (buildPdfImagePlan inp).printableHeightMm) :
    (buildPdfImagePlan inp).offsetsYMm.length =
      max 1 ⌈(buildPdfImagePlan inp).renderedHeightMm /
        (buildPdfImagePlan inp).printableHeightMm⌉.toNat := by
  simp only [buildPdfImagePlan] at hp ⊢
  exact pdfPlanOffsets_length _ _ _ hp _ _ _ (by omega)

theorem pdfPlanOffsets_zero_height (m p : ℚ) (hp : 0 < p) (fuel : ℕ) :
    pdfPlanOffsets m 0 p fuel m 0 = [m] := by
  cases fuel with
  | zero => rfl
  | succ n =>
    simp only [pdfPlanOffsets]
    rw [if_neg]
    intro h
    linarith

/-- C1: spec-modelled `buildPdfImagePlan`.  On the documented input it
yields printableWidthMm 186, printableHeightMm 273, renderedHeightMm 558 and
offsetsYMm [12, -261, -534]; with a positive printable height, a rendered
height exactly filling N ≥ 1 pages emits exactly N offsets (no trailing
blank page), any positive remainder emits one more, and a zero-height
canvas yields a single page with renderedHeightMm 0 instead of a division
by zero. -/
theorem buildPdfImagePlan_claim :
    buildPdfImagePlan ⟨1000, 3000, 210, 297, 12⟩ =
        ⟨12, 186, 273, 558, [12, -261, -534]⟩ ∧
    (∀ inp : PdfImagePlanInput, 0 < (buildPdfImagePlan inp).printableHeightMm →
      (∀ N : ℕ, 1 ≤ N →
        (buildPdfImagePlan inp).renderedHeightMm =
          (N : ℚ) * (buildPdfImagePlan inp).printableHeightMm →
        (buildPdfImagePlan inp).offsetsYMm.length = N) ∧
      (∀ (N : ℕ) (rem : ℚ), 0 < rem →
        rem ≤ (buildPdfImagePlan inp).printableHeightMm →
        (buildPdfImagePlan inp).renderedHeightMm =
          (N : ℚ) * (buildPdfImagePlan inp).printableHeightMm + rem →
        (buildPdfImagePlan inp).offsetsYMm.length = N + 1) ∧
      (inp.canvasHeightPx = 0 →
        (buildPdfImagePlan inp).renderedHeightMm = 0 ∧
        (buildPdfImagePlan inp).offsetsYMm = [(buildPdfImagePlan inp).safeMarginMm])) := by
  constructor
  · have hclamp : clamp 12 8 (max 8 (min (210 : ℚ) 297 / 2 - 12)) = 12 := by
      unfold clamp
      rw [min_eq_left (by norm_num : (210 : ℚ) ≤ 297)]
      rw [max_eq_right (by norm_num : (8 : ℚ) ≤ 210 / 2 - 12)]
      rw [max_eq_left (by norm_num : (8 : ℚ) ≤ 12)]
      rw [min_eq_left (by norm_num : (12 : ℚ) ≤ 210 / 2 - 12)]
    have hceil : ⌈(186 : ℚ) / 91⌉ = 3 := by
      rw [Int.ceil_eq_iff]
      norm_num
    simp only [buildPdfImagePlan, hclamp]
    norm_num [pdfPlanOffsets, hceil]
  · intro inp hp
    have hpne : (buildPdfImagePlan inp).printableHeightMm ≠ 0 := ne_of_gt hp
    refine ⟨?_, ?_, ?_⟩
    · intro N hN hr
      rw [buildPdfImagePlan_offsets_length inp hp, hr]
      have hq : ((N : ℚ) * (buildPdfImagePlan inp).printableHeightMm) /
          (buildPdfImagePlan inp).printableHeightMm = (N : ℚ) := by
        rw [mul_div_assoc, div_self hpne, mul_one]
      rw [hq, Int.ceil_natCast]
      omega
    · intro N rem hrem1 hrem2 hr
      rw [buildPdfImagePlan_offsets_length inp hp, hr]
      have hq : ((N : ℚ) * (buildPdfImagePlan inp).printableHeightMm + rem) /
          (buildPdfImagePlan inp).printableHeightMm =
          rem / (buildPdfImagePlan inp).printableHeightMm + (N : ℚ) := by
        rw [add_div, mul_div_assoc, div_self hpne, mul_one, add_comm]
      have hone : ⌈rem / (buildPdfImagePlan inp).printableHeightMm⌉ = 1 := by
        apply Int.ceil_eq_iff.mpr
        constructor
        · push_cast
          simpa using div_pos hrem1 hp
        · push_cast
          rw [div_le_one hp]
          exact hrem2
      rw [hq, Int.ceil_add_nat, hone]
      omega
    · intro hch
      have hr0 : (buildPdfImagePlan inp).renderedHeightMm = 0 := by
        simp only [buildPdfImagePlan]
        by_cases hcw : inp.canvasWidthPx = 0 <;> simp [hcw, hch]
      refine ⟨hr0, ?_⟩
      have hp2 : (0 : ℚ) < inp.pageHeightMm -
          clamp inp.marginMm 8
            (max 8 (min inp.pageWidthMm inp.pageHeightMm / 2 - 12)) * 2 := by
        simpa only [buildPdfImagePlan] using hp
      have hv : (if inp.canvasWidthPx = 0 then (0 : ℚ)
          else inp.canvasHeightPx *
            (inp.pageWidthMm - clamp inp.marginMm 8
              (max 8 (min inp.pageWidthMm inp.pageHeightMm / 2 - 12)) * 2) /
            inp.canvasWidthPx) = 0 := by
        by_cases hcw : inp.canvasWidthPx = 0 <;> simp [hcw, hch]
      simp only [buildPdfImagePlan, hv]
      rw [zero_div, Int.ceil_zero]
      exact pdfPlanOffsets_zero_height _ _ hp2 _

/-- C1 witness: the remainder page-count conjunct instantiated at the
documented input — two full 273mm pages plus a positive 12mm remainder give
exactly three offsets. -/
theorem buildPdfImagePlan_claim_witness :
    (buildPdfImagePlan ⟨1000, 3000, 210, 297, 12⟩).offsetsYMm.length = 2 + 1 := by
  have h := buildPdfImagePlan_claim
  refine (h.2 ⟨1000, 3000, 210, 297, 12⟩ ?_).2.1 2 12 (by norm_num) ?_ ?_
  · rw [h.1]
    norm_num
  · rw [h.1]
    norm_num
  · rw [h.1]
    norm_num

/-! ## prepareMarkdownForRender (editor.ts lines 267–284)

The regex split on `(\x60\x60\x60[\s\S]*?\x60\x60\x60|~~~[\s\S]*?~~~)` with a capturing
group interleaves the non-matching stretches with the matched fences; a
fence match opens at the earliest triple and closes at the earliest
following triple (the lazy quantifier).  Segments are then re-tested
against `^(\x60\x60\x60|~~~)`: fence segments pass through untouched, others get
their runs of 4+ underscores replaced by the signature-line span. -/

def backtickChar : Char := Char.ofNat 96

def placeholderSpan (n : ℕ) : List Char :=
  chars ("<span class=\"signature-line\" aria-hidden=\"true\" style=\"width: " ++
    toString (max n 4) ++ "ch\"></span>")

/-- What one maximal underscore run becomes: nothing when empty, the span
when it has length ≥ 4, itself otherwise. -/
def emitRun (n : ℕ) : List Char :=
  if n = 0 then []
  else if 4 ≤ n then placeholderSpan n
  else List.replicate n '_'

def replaceRunsAux : ℕ → List Char → List Char
  | pending, [] => emitRun pending
  | pending, '_' :: rest => replaceRunsAux (pending + 1) rest
  | pending, c :: rest => emitRun pending ++ c :: replaceRunsAux 0 rest

/-- `segment.replace(/_\x7b4,\x7d/g, ...)`. -/
def replaceUnderscoreRuns (cs : List Char) : List Char := replaceRunsAux 0 cs

def startsWithTriple (c : Char) : List Char → Bool
  | a :: b :: d :: _ => a == c && b == c && d == c
  | _ => false

/-- Earliest occurrence of three consecutive `c`s:
`cs = before ++ [c, c, c] ++ after` with no earlier triple. -/
def findTriple (c : Char) : List Char → Option (List Char × List Char)
  | [] => none
  | x :: rest =>
    if startsWithTriple c (x :: rest) then some ([], rest.drop 2)
    else
      match findTriple c rest with
      | some (before, after) => some (x :: before, after)
      | none => none

/-- Which fence alternative can open here: the backtick alternative is
tried before the tilde alternative, matching the regex alternation order. -/
def fenceAt (cs : List Char) : Option Char :=
  if startsWithTriple backtickChar cs then some backtickChar
  else if startsWithTriple '~' cs then some '~'
  else none

/-- The earliest complete fence match: `cs = pre ++ fence ++ rest` where
`fence` opens with a triple and closes at the earliest following triple of
the same character; an unclosed opener is skipped, as regex backtracking
does. -/
def findFenceMatch : List Char → Option (List Char × List Char × List Char)
  | [] => none
  | x :: rest =>
    match fenceAt (x :: rest) with
    | some c =>
      match findTriple c ((x :: rest).drop 3) with
      | some (mid, after) => some ([], [c, c, c] ++ mid ++ [c, c, c], after)
      | none =>
        match findFenceMatch rest with
        | some (pre, fence, after) => some (x :: pre, fence, after)
        | none => none
    | none =>
      match findFenceMatch rest with
      | some (pre, fence, after) => some (x :: pre, fence, after)
      | none => none

theorem startsWithTriple_eq_true {c : Char} {cs : List Char}
    (h : startsWithTriple c cs = true) : ∃ t, cs = c :: c :: c :: t := by
  match cs with
  | [] => simp [startsWithTriple] at h
  | [a] => simp [startsWithTriple] at h
  | [a, b] => simp [startsWithTriple] at h
  | a :: b :: d :: t =>
    simp only [startsWithTriple, Bool.and_eq_true, beq_iff_eq] at h
    obtain ⟨⟨rfl, rfl⟩, rfl⟩ := h
    exact ⟨t, rfl⟩

theorem findTriple_spec (c : Char) :
    ∀ (cs before after : List Char), findTriple c cs = some (before, after) →
      cs = before ++ [c, c, c] ++ after := by
  intro cs
  induction cs with
  | nil =>
    intro before after h
    simp [findTriple] at h
  | cons x rest ih =>
    intro before after h
    by_cases hs : startsWithTriple c (x :: rest) = true
    · obtain ⟨t, ht⟩ := startsWithTriple_eq_true hs
      injection ht with h1 h2
      subst h1
      subst h2
      simp only [findTriple, hs, if_true, Option.some.injEq, Prod.mk.injEq] at h
      obtain ⟨rfl, rfl⟩ := h
      simp
    · simp only [findTriple, hs, if_false] at h
      rcases hrec : findTriple c rest with _ | ⟨b2, a2⟩
      · rw [hrec] at h
        simp at h
      · rw [hrec] at h
        simp only [Option.some.injEq, Prod.mk.injEq] at h
        obtain ⟨rfl, rfl⟩ := h
        simpa using ih b2 after hrec

theorem findFenceMatch_spec :
    ∀ (cs pre fence rest : List Char), findFenceMatch cs = some (pre, fence, rest) →
      cs = pre ++ fence ++ rest ∧ 6 ≤ fence.length := by
  intro cs
  induction cs with
  | nil =>
    intro pre fence rest h
    simp [findFenceMatch] at h
  | cons x xs ih =>
    intro pre fence rest h
    simp only [findFenceMatch] at h
    rcases hat : fenceAt (x :: xs) with _ | c <;> rw [hat] at h <;> simp only at h
    · rcases hrec : findFenceMatch xs with _ | ⟨p2, f2, r2⟩ <;> rw [hrec] at h
      · simp at h
      · simp only [Option.some.injEq, Prod.mk.injEq] at h
        obtain ⟨rfl, rfl, rfl⟩ := h
        obtain ⟨hdec, hlen⟩ := ih _ _ _ hrec
        exact ⟨by simp [hdec], hlen⟩
    · rcases htr : findTriple c ((x :: xs).drop 3) with _ | ⟨mid, after⟩ <;> rw [htr] at h <;>
        simp only at h
      · rcases hrec : findFenceMatch xs with _ | ⟨p2, f2, r2⟩ <;> rw [hrec] at h
        · simp at h
        · simp only [Option.some.injEq, Prod.mk.injEq] at h
          obtain ⟨rfl, rfl, rfl⟩ := h
          obtain ⟨hdec, hlen⟩ := ih _ _ _ hrec
          exact ⟨by simp [hdec], hlen⟩
      · simp only [Option.some.injEq, Prod.mk.injEq] at h
        obtain ⟨rfl, rfl, rfl⟩ := h
        have hopen : ∃ t, x :: xs = c :: c :: c :: t := by
          unfold fenceAt at hat
          by_cases h1 : startsWithTriple backtickChar (x :: xs) = true
          · rw [if_pos h1] at hat
            injection hat with hc
            subst hc
            exact startsWithTriple_eq_true h1
          · rw [if_neg h1] at hat
            by_cases h2 : startsWithTriple '~' (x :: xs) = true
            · rw [if_pos h2] at hat
              injection hat with hc
              subst hc
              exact startsWithTriple_eq_true h2
            · rw [if_neg h2] at hat
              exact absurd hat (by simp)
        obtain ⟨t, ht⟩ := hopen
        have hdropped : (x :: xs).drop 3 = t := by rw [ht]; rfl
        rw [hdropped] at htr
        have hmid := findTriple_spec c t mid after htr
        constructor
        · rw [ht, hmid]
          simp
        · simp

/-- `markdown.split(FENCED_CODE_BLOCK_PATTERN)` with the capturing group:
the stretches between matches interleaved with the matched fences. -/
def splitFences (cs : List Char) : List (List Char) :=
  match h : findFenceMatch cs with
  | none => [cs]
  | some (pre, fence, rest) => pre :: fence :: splitFences rest
termination_by cs.length
decreasing_by
  have hspec := findFenceMatch_spec cs pre fence rest h
  rw [hspec.1]
  simp only [List.length_append]
  omega

/-- The per-segment test `/^(\x60\x60\x60|~~~)/`. -/
def isFenceSegment (seg : List Char) : Bool :=
  startsWithTriple backtickChar seg || startsWithTriple '~' seg

def prepareMarkdownForRender (cs : List Char) : List Char :=
  ((splitFences cs).map fun seg =>
    if isFenceSegment seg then seg else replaceUnderscoreRuns seg).flatten

/-! ## Lemmas about the underscore-run substitution -/

theorem replaceRunsAux_replicate (b : List Char) :
    ∀ (n k : ℕ), replaceRunsAux k (List.replicate n '_' ++ b) = replaceRunsAux (k + n) b := by
  intro n
  induction n with
  | zero => intro k; simp
  | succ m ih =>
    intro k
    have : List.replicate (m + 1) '_' ++ b = '_' :: (List.replicate m '_' ++ b) := by
      simp [List.replicate_succ]
    rw [this]
    show replaceRunsAux (k + 1) (List.replicate m '_' ++ b) = replaceRunsAux (k + (m + 1)) b
    rw [ih (k + 1)]
    congr 1
    omega

theorem replaceRunsAux_flush (b : List Char) (hb : b.head? ≠ some '_') (k : ℕ) :
    replaceRunsAux k b = emitRun k ++ replaceRunsAux 0 b := by
  match b with
  | [] => simp [replaceRunsAux, emitRun]
  | c :: rest =>
    have hc : c ≠ '_' := by
      intro hceq
      exact hb (by rw [hceq]; rfl)
    rw [show replaceRunsAux k (c :: rest) = emitRun k ++ c :: replaceRunsAux 0 rest from by
          simp [replaceRunsAux, hc],
        show replaceRunsAux 0 (c :: rest) = emitRun 0 ++ c :: replaceRunsAux 0 rest from by
          simp [replaceRunsAux, hc]]
    simp [emitRun]

theorem replaceRunsAux_append (a : List Char) :
    ∀ (t : List Char) (k : ℕ), a ≠ [] → a.getLast? ≠ some '_' →
      replaceRunsAux k (a ++ t) = replaceRunsAux k a ++ replaceRunsAux 0 t := by
  induction a with
  | nil =>
    intro t k hne hlast
    exact absurd rfl hne
  | cons c a2 ih =>
    intro t k hne hlast
    by_cases ha2 : a2 = []
    · subst ha2
      have hc : c ≠ '_' := by
        intro hceq
        apply hlast
        rw [hceq]
        rfl
      rw [show (([c] : List Char) ++ t) = c :: t from rfl]
      rw [show replaceRunsAux k (c :: t) = emitRun k ++ c :: replaceRunsAux 0 t from by
            simp [replaceRunsAux, hc]]
      rw [show replaceRunsAux k [c] = emitRun k ++ c :: replaceRunsAux 0 [] from by
            simp [replaceRunsAux, hc]]
      simp [replaceRunsAux, emitRun]
    · have hlast2 : a2.getLast? ≠ some '_' := by
        rcases a2 with _ | ⟨b, l⟩
        · exact absurd rfl ha2
        · rwa [List.getLast?_cons_cons] at hlast
      by_cases hc : c = '_'
      · subst hc
        rw [show (('_' :: a2) ++ t) = '_' :: (a2 ++ t) from rfl]
        rw [show replaceRunsAux k ('_' :: (a2 ++ t)) = replaceRunsAux (k + 1) (a2 ++ t) from by
              simp [replaceRunsAux]]
        rw [show replaceRunsAux k ('_' :: a2) = replaceRunsAux (k + 1) a2 from by
              simp [replaceRunsAux]]
        exact ih t (k + 1) ha2 hlast2
      · rw [show ((c :: a2) ++ t) = c :: (a2 ++ t) from rfl]
        rw [show replaceRunsAux k (c :: (a2 ++ t)) =
              emitRun k ++ c :: replaceRunsAux 0 (a2 ++ t) from by simp [replaceRunsAux, hc]]
        rw [show replaceRunsAux k (c :: a2) = emitRun k ++ c :: replaceRunsAux 0 a2 from by
              simp [replaceRunsAux, hc]]
        rw [ih t 0 ha2 hlast2]
        simp

theorem emitRun_of_ge (n : ℕ) (h : 4 ≤ n) : emitRun n = placeholderSpan n := by
  unfold emitRun
  rw [if_neg (by omega), if_pos h]

theorem emitRun_of_lt (n : ℕ) (h : n < 4) : emitRun n = List.replicate n '_' := by
  unfold emitRun
  by_cases h0 : n = 0
  · subst h0
    simp
  · rw [if_neg h0, if_neg (by omega)]

theorem replaceUnderscoreRuns_run (a b : List Char) (n : ℕ)
    (ha : a.getLast? ≠ some '_') (hb : b.head? ≠ some '_') :
    replaceUnderscoreRuns (a ++ List.replicate n '_' ++ b) =
      replaceUnderscoreRuns a ++ emitRun n ++ replaceUnderscoreRuns b := by
  unfold replaceUnderscoreRuns
  by_cases hane : a = []
  · subst hane
    simp only [List.nil_append]
    rw [replaceRunsAux_replicate b n 0, Nat.zero_add, replaceRunsAux_flush b hb n]
    simp [replaceRunsAux, emitRun]
  · rw [List.append_assoc, replaceRunsAux_append a _ 0 hane ha,
      replaceRunsAux_replicate b n 0, Nat.zero_add, replaceRunsAux_flush b hb n]
    simp

theorem placeholderSpan_width (n : ℕ) (h : 4 ≤ n) :
    placeholderSpan n =
      chars ("<span class=\"signature-line\" aria-hidden=\"true\" style=\"width: " ++
        toString n ++ "ch\"></span>") := by
  unfold placeholderSpan
  rw [max_eq_left h]

/-! ## Lemmas about fence recognition -/

/-- Whether three consecutive `c`s occur anywhere in the list. -/
def containsTriple (c : Char) : List Char → Bool
  | [] => false
  | x :: rest => startsWithTriple c (x :: rest) || containsTriple c rest

def fenceFree (cs : List Char) : Bool :=
  cs.all fun ch => !(ch == backtickChar) && !(ch == '~')

theorem fenceFree_head {x : Char} {xs : List Char} (h : fenceFree (x :: xs) = true) :
    x ≠ backtickChar ∧ x ≠ '~' ∧ fenceFree xs = true := by
  simp only [fenceFree, List.all_cons, Bool.and_eq_true, Bool.not_eq_true', beq_eq_false_iff_ne]
    at h
  exact ⟨h.1.1, h.1.2, h.2⟩

theorem startsWithTriple_of_head_ne {c x : Char} {xs : List Char} (h : x ≠ c) :
    startsWithTriple c (x :: xs) = false := by
  match xs with
  | [] => rfl
  | [b] => rfl
  | b :: d :: t => simp [startsWithTriple, h]

theorem fenceAt_of_head_ne {x : Char} {xs : List Char}
    (h1 : x ≠ backtickChar) (h2 : x ≠ '~') : fenceAt (x :: xs) = none := by
  unfold fenceAt
  rw [startsWithTriple_of_head_ne h1, startsWithTriple_of_head_ne h2]
  rfl

theorem findTriple_concat (c : Char) :
    ∀ (mid : List Char), containsTriple c mid = false → mid.getLast? ≠ some c →
      ∀ b, findTriple c (mid ++ [c, c, c] ++ b) = some (mid, b) := by
  intro mid
  induction mid with
  | nil =>
    intro _ _ b
    have hs : startsWithTriple c (c :: c :: c :: b) = true := by
      simp [startsWithTriple]
    simp [findTriple, hs]
  | cons m mid2 ih =>
    intro hct hlast b
    have hct2 : startsWithTriple c (m :: mid2) = false ∧ containsTriple c mid2 = false := by
      simp only [containsTriple, Bool.or_eq_false_iff] at hct
      exact hct
    have hs : startsWithTriple c ((m :: mid2) ++ [c, c, c] ++ b) = false := by
      match mid2, hlast, hct2 with
      | [], hlast, _ =>
        have hm : m ≠ c := by
          intro hmc
          exact hlast (by rw [hmc]; rfl)
        exact startsWithTriple_of_head_ne hm
      | [m2], hlast, _ =>
        have hm2 : m2 ≠ c := by
          intro hmc
          exact hlast (by rw [hmc]; rfl)
        simp [startsWithTriple, hm2]
      | m2 :: m3 :: mid4, _, hct2 =>
        simpa [startsWithTriple] using hct2.1
    have hlast2 : mid2.getLast? ≠ some c ∨ mid2 = [] := by
      rcases mid2 with _ | ⟨b2, l2⟩
      · exact Or.inr rfl
      · exact Or.inl (by rwa [List.getLast?_cons_cons] at hlast)
    have hrec : findTriple c (mid2 ++ [c, c, c] ++ b) = some (mid2, b) := by
      rcases hlast2 with h | h
      · exact ih hct2.2 h b
      · subst h
        exact ih (by rfl) (by simp) b
    rw [show (m :: mid2) ++ [c, c, c] ++ b = m :: (mid2 ++ [c, c, c] ++ b) by simp]
    simp only [findTriple]
    rw [if_neg (by simpa using hs), hrec]

theorem findFenceMatch_of_fenceFree :
    ∀ cs : List Char, fenceFree cs = true → findFenceMatch cs = none := by
  intro cs
  induction cs with
  | nil => intro _; rfl
  | cons x xs ih =>
    intro h
    obtain ⟨h1, h2, h3⟩ := fenceFree_head h
    simp only [findFenceMatch, fenceAt_of_head_ne h1 h2, ih h3]

theorem findFenceMatch_append_of_fenceFree :
    ∀ a : List Char, fenceFree a = true → ∀ t : List Char,
      findFenceMatch (a ++ t) =
        (findFenceMatch t).map fun r => (a ++ r.1, r.2.1, r.2.2) := by
  intro a
  induction a with
  | nil =>
    intro _ t
    rcases h : findFenceMatch t with _ | ⟨p, f, r⟩ <;> simp [h]
  | cons x a2 ih =>
    intro ha t
    obtain ⟨h1, h2, ha2⟩ := fenceFree_head ha
    rw [List.cons_append]
    simp only [findFenceMatch, fenceAt_of_head_ne h1 h2]
    rw [ih ha2 t]
    rcases h : findFenceMatch t with _ | ⟨p, f, r⟩ <;> simp [h]

theorem splitFences_of_none (cs : List Char) (h : findFenceMatch cs = none) :
    splitFences cs = [cs] := by
  rw [splitFences]
  split
  · rfl
  · next p f r heq =>
      rw [heq] at h
      cases h

theorem splitFences_of_some (cs pre fence rest : List Char)
    (h : findFenceMatch cs = some (pre, fence, rest)) :
    splitFences cs = pre :: fence :: splitFences rest := by
  rw [splitFences]
  split
  · next heq =>
      rw [heq] at h
      cases h
  · next p f r heq =>
      rw [heq] at h
      injection h with h2
      injection h2 with hpre h3
      injection h3 with hfence hrest
      subst hpre
      subst hfence
      subst hrest
      rfl

theorem findFenceMatch_at_fence (c : Char) (hc : c = backtickChar ∨ c = '~')
    (mid b : List Char) (hmid : containsTriple c mid = false)
    (hlast : mid.getLast? ≠ some c) :
    findFenceMatch (([c, c, c] ++ mid ++ [c, c, c]) ++ b) =
      some ([], [c, c, c] ++ mid ++ [c, c, c], b) := by
  have hshape : (([c, c, c] ++ mid ++ [c, c, c]) ++ b) =
      c :: c :: c :: (mid ++ [c, c, c] ++ b) := by simp
  have hfa : fenceAt (c :: c :: c :: (mid ++ [c, c, c] ++ b)) = some c := by
    rcases hc with rfl | rfl
    · unfold fenceAt
      rw [if_pos (by simp [startsWithTriple])]
    · unfold fenceAt
      rw [startsWithTriple_of_head_ne (show ('~' : Char) ≠ backtickChar from by decide)]
      rw [if_neg (by simp)]
      rw [if_pos (by simp [startsWithTriple])]
  rw [hshape]
  simp only [findFenceMatch, hfa, List.drop_succ_cons, List.drop_zero]
  rw [findTriple_concat c mid hmid hlast b]

theorem splitFences_decomp (c : Char) (hc : c = backtickChar ∨ c = '~')
    (a mid b : List Char) (ha : fenceFree a = true)
    (hmid : containsTriple c mid = false) (hlast : mid.getLast? ≠ some c) :
    splitFences (a ++ ([c, c, c] ++ mid ++ [c, c, c]) ++ b) =
      a :: ([c, c, c] ++ mid ++ [c, c, c]) :: splitFences b := by
  have h1 : findFenceMatch (a ++ (([c, c, c] ++ mid ++ [c, c, c]) ++ b)) =
      some (a, [c, c, c] ++ mid ++ [c, c, c], b) := by
    rw [findFenceMatch_append_of_fenceFree a ha,
      findFenceMatch_at_fence c hc mid b hmid hlast]
    simp
  rw [List.append_assoc, splitFences_of_some _ _ _ _ h1]

theorem isFenceSegment_of_fenceFree (cs : List Char) (h : fenceFree cs = true) :
    isFenceSegment cs = false := by
  cases cs with
  | nil => rfl
  | cons x xs =>
    obtain ⟨h1, h2, _⟩ := fenceFree_head h
    simp [isFenceSegment, startsWithTriple_of_head_ne h1, startsWithTriple_of_head_ne h2]

theorem isFenceSegment_fence (c : Char) (hc : c = backtickChar ∨ c = '~') (t : List Char) :
    isFenceSegment ([c, c, c] ++ t) = true := by
  have hs : startsWithTriple c ([c, c, c] ++ t) = true := by
    simp [startsWithTriple]
  rcases hc with rfl | rfl
  · unfold isFenceSegment
    rw [hs]
    rfl
  · unfold isFenceSegment
    rw [hs]
    simp

theorem prepareMarkdownForRender_of_fenceFree (cs : List Char) (h : fenceFree cs = true) :
    prepareMarkdownForRender cs = replaceUnderscoreRuns cs := by
  unfold prepareMarkdownForRender
  rw [splitFences_of_none cs (findFenceMatch_of_fenceFree cs h)]
  simp [isFenceSegment_of_fenceFree cs h]

theorem prepareMarkdownForRender_fence (c : Char) (hc : c = backtickChar ∨ c = '~')
    (a mid b : List Char) (ha : fenceFree a = true)
    (hmid : containsTriple c mid = false) (hlast : mid.getLast? ≠ some c) :
    prepareMarkdownForRender (a ++ ([c, c, c] ++ mid ++ [c, c, c]) ++ b) =
      replaceUnderscoreRuns a ++ ([c, c, c] ++ mid ++ [c, c, c]) ++
        prepareMarkdownForRender b := by
  unfold prepareMarkdownForRender
  rw [splitFences_decomp c hc a mid b ha hmid hlast]
  have hfseg : isFenceSegment (c :: c :: c :: (mid ++ [c, c, c])) = true := by
    simpa using isFenceSegment_fence c hc (mid ++ [c, c, c])
  simp [isFenceSegment_of_fenceFree a ha, hfseg, List.append_assoc]

/-- C9: prepareMarkdownForRender replaces each maximal run of 4 or more
underscores outside fenced code blocks with a signature-line span whose
width in ch units equals the run length (always at least 4), leaves
shorter runs as they are, and passes fenced code blocks — triple-backtick
or triple-tilde delimited — through byte-for-byte unchanged. -/
theorem prepareMarkdownForRender_claim :
    (∀ (a b : List Char) (n : ℕ), a.getLast? ≠ some '_' → b.head? ≠ some '_' → 4 ≤ n →
      replaceUnderscoreRuns (a ++ List.replicate n '_' ++ b) =
        replaceUnderscoreRuns a ++ placeholderSpan n ++ replaceUnderscoreRuns b) ∧
    (∀ n : ℕ, 4 ≤ n → placeholderSpan n =
      chars ("<span class=\"signature-line\" aria-hidden=\"true\" style=\"width: " ++
        toString n ++ "ch\"></span>")) ∧
    (∀ (a b : List Char) (n : ℕ), a.getLast? ≠ some '_' → b.head? ≠ some '_' → n < 4 →
      replaceUnderscoreRuns (a ++ List.replicate n '_' ++ b) =
        replaceUnderscoreRuns a ++ List.replicate n '_' ++ replaceUnderscoreRuns b) ∧
    (∀ cs : List Char, fenceFree cs = true →
      prepareMarkdownForRender cs = replaceUnderscoreRuns cs) ∧
    (∀ c : Char, c = backtickChar ∨ c = '~' → ∀ (a mid b : List Char),
      fenceFree a = true → containsTriple c mid = false → mid.getLast? ≠ some c →
      prepareMarkdownForRender (a ++ ([c, c, c] ++ mid ++ [c, c, c]) ++ b) =
        replaceUnderscoreRuns a ++ ([c, c, c] ++ mid ++ [c, c, c]) ++
          prepareMarkdownForRender b) := by
  refine ⟨?_, placeholderSpan_width, ?_, prepareMarkdownForRender_of_fenceFree,
    prepareMarkdownForRender_fence⟩
  · intro a b n ha hb hn
    rw [replaceUnderscoreRuns_run a b n ha hb, emitRun_of_ge n hn]
  · intro a b n ha hb hn
    rw [replaceUnderscoreRuns_run a b n ha hb, emitRun_of_lt n hn]

/-- C9 witness: the run-replacement conjunct at "x" ++ 5 underscores ++ "y"
and the fence-preservation conjunct at a backtick fence holding an
underscore run. -/
theorem prepareMarkdownForRender_claim_witness :
    (replaceUnderscoreRuns (chars "x" ++ List.replicate 5 '_' ++ chars "y") =
      replaceUnderscoreRuns (chars "x") ++ placeholderSpan 5 ++
        replaceUnderscoreRuns (chars "y")) ∧
    (prepareMarkdownForRender (chars "A" ++
        ([backtickChar, backtickChar, backtickChar] ++ chars "txt ____ " ++
          [backtickChar, backtickChar, backtickChar]) ++ chars " ____ tail") =
      replaceUnderscoreRuns (chars "A") ++
        ([backtickChar, backtickChar, backtickChar] ++ chars "txt ____ " ++
          [backtickChar, backtickChar, backtickChar]) ++
        prepareMarkdownForRender (chars " ____ tail")) :=
  ⟨prepareMarkdownForRender_claim.1 (chars "x") (chars "y") 5
      (by decide) (by decide) (by decide),
   prepareMarkdownForRender_claim.2.2.2.2 backtickChar (Or.inl rfl) (chars "A")
      (chars "txt ____ ") (chars " ____ tail") (by decide) (by decide) (by decide)⟩
